import Mathlib

/-!
Choose Your Path (mod_choose_your_path.c)

A shallow embedding of the Apache module `mod_choose_your_path.c` and theorems about it.

Conventions of the embedding.

* A C string is the list of its characters before the terminating NUL; a `char *` that may be
  `NULL` is an `Option (List Char)`.
* The platform is LP64: `long` and `size_t` have 64 bits, `int` has 32 bits. The conversion of a
  `long` to `int` and `int` arithmetic wrap modulo `2^32` (two's complement).
* A call that dereferences `NULL` (`strtol(NULL, ..)`, `strlen(NULL)`) or a loop that does not
  end gives no response: the functions concerned return `none`.
* A local variable read before it is assigned has the value the stack held: `stack_garbage`.
* `sprintf(buffer, "%i", v)` is modelled by the text it produces; the field `overrun` records that
  this text with its NUL did not fit in `char buffer[10]`, where C leaves the behaviour undefined.
  What `choose_handler` gives for a request is what the code does as long as `overrun` is
  `false` and the sums stay inside `int`: the theorems on the cookie carry these bounds.
* `malloc` is assumed to succeed. `replace_str` and `templated_layout` give the text that is
  written; whether it fits the block that was allocated is decided by `replace_str_retlen`,
  `replace_str_checked` and `templated_layout_checked`, which give `none` for a write past a
  block.
-/

namespace CYP

/-! ## The C library functions the module calls -/

/-- C `isspace` in the "C" locale. -/
def isspace (c : Char) : Bool :=
  c = ' ' || c = '\t' || c = '\n' || c = '\x0b' || c = '\x0c' || c = '\r'

/-- C `isdigit`. -/
def isdigit (c : Char) : Bool :=
  decide (48 ≤ c.toNat) && decide (c.toNat ≤ 57)

/-- Value of a character as a digit in `strtol` (0-9, then letters of either case from 10). -/
def digit_value (c : Char) : Option Nat :=
  if 48 ≤ c.toNat ∧ c.toNat ≤ 57 then some (c.toNat - 48)
  else if 97 ≤ c.toNat ∧ c.toNat ≤ 122 then some (c.toNat - 87)
  else if 65 ≤ c.toNat ∧ c.toNat ≤ 90 then some (c.toNat - 55)
  else none

/-- The digit loop of `strtol`: consume digits valid in `base`, stop at the first other
character. -/
def strtol_digits (base : Nat) : Nat → List Char → Nat
  | acc, [] => acc
  | acc, c :: cs =>
    match digit_value c with
    | some d => if d < base then strtol_digits base (acc * base + d) cs else acc
    | none => acc

/-- Optional sign of the subject sequence of `strtol`: `(negative, text after the sign)`. -/
def strtol_sign : List Char → Bool × List Char
  | [] => (false, [])
  | c :: cs => if c = '-' then (true, cs) else if c = '+' then (false, cs) else (false, c :: cs)

/-- Base selection of `strtol` called with base 0: `0x`/`0X` selects 16 (prefix skipped), another
leading `0` selects 8, anything else 10. -/
def strtol_base : List Char → Nat × List Char
  | [] => (10, [])
  | c :: cs =>
    if c = '0' then
      match cs with
      | [] => (8, c :: cs)
      | x :: t => if x = 'x' ∨ x = 'X' then (16, t) else (8, c :: cs)
    else (10, c :: cs)

/-- `LONG_MAX` on LP64. -/
def LONG_MAX : Int := 2 ^ 63 - 1

/-- `LONG_MIN` on LP64. -/
def LONG_MIN : Int := -(2 ^ 63)

/-- C `strtol(s, &end, 0)` (ISO C11 7.22.1.4): skip white space, read the sign, select the base
from the prefix, read the digits; no digits give 0; a value out of range of `long` is clamped
to `LONG_MIN` or `LONG_MAX`. The end pointer the module passes is never read, so it is not
returned. -/
def strtol (s : List Char) : Int :=
  let signed := strtol_sign (s.dropWhile isspace)
  let based := strtol_base signed.2
  let v : Int := (strtol_digits based.1 0 based.2 : Nat)
  if signed.1 then max LONG_MIN (-v) else min LONG_MAX v

/-- Conversion of a `long` (or of the mathematical result of an `int` operation) to `int`. -/
def to_int (v : Int) : Int := (v + 2 ^ 31) % 2 ^ 32 - 2 ^ 31

/-- Decimal digits of `n`, most significant first (`fuel` bounds the number of digits). -/
def fmt_digits : Nat → Nat → List Char
  | 0, _ => []
  | fuel + 1, n =>
    if n < 10 then [Char.ofNat (48 + n)]
    else fmt_digits fuel (n / 10) ++ [Char.ofNat (48 + n % 10)]

/-- Text of the conversion `%i` for the value `v`: a `-` for a negative value, then the decimal
digits without leading zeros. -/
def fmt_i (v : Int) : List Char :=
  if v < 0 then '-' :: fmt_digits (v.natAbs + 1) v.natAbs
  else fmt_digits (v.natAbs + 1) v.natAbs

/-- Text of the conversion `%s`; both `apr_vformatter` and glibc print `(null)` for `NULL`. -/
def fmt_s (s : Option (List Char)) : List Char :=
  s.getD "(null)".toList

/-- C `strtok` with the delimiter set `"&"`, on the text still to be scanned: skip leading
delimiters; at the end of the text there is no token; otherwise the token runs to the next
delimiter, and scanning resumes after that delimiter. Result: `(token, text still to scan)`. -/
def strtok (s : List Char) : Option (List Char × List Char) :=
  match s.dropWhile (fun c => c == '&') with
  | [] => none
  | c :: cs =>
    some ((c :: cs).takeWhile (fun c => c != '&'),
          ((c :: cs).dropWhile (fun c => c != '&')).drop 1)

/-- C `strstr(p, old)`: offset of the first occurrence of `old` in `p`, `none` for `NULL`. -/
def strstr (p old : List Char) : Option Nat :=
  if old.isPrefixOf p then some 0
  else
    match p with
    | [] => none
    | _ :: t => (strstr t old).map (fun l => l + 1)

/-! ## Data -/

/-- The per-directory configuration `choose_config`; a field not set is `NULL`. -/
structure choose_config where
  level_title : Option (List Char)
  level_description : Option (List Char)
  move_left : Option (List Char)
  move_left_title : Option (List Char)
  move_right : Option (List Char)
  move_right_title : Option (List Char)
  treasure : Option (List Char)
  damage : Option (List Char)
  theme_template : Option (List Char)
deriving DecidableEq

/-- A `char *` as the handler sees it: where it points and the text found there. -/
structure c_str where
  addr : Nat
  text : List Char
deriving DecidableEq

/-- The parts of `request_rec` the handler reads: `r->handler`, `r->filename` and the result of
`apr_table_get(r->headers_in, "Cookie")`. -/
structure request_rec where
  handler : Option (List Char)
  filename : c_str
  cookie_data : Option (List Char)
deriving DecidableEq

/-- What the stack holds where the handler's unassigned locals `config_treasure`,
`config_damage` and `cookie` live. -/
structure stack_garbage where
  config_treasure : Int
  config_damage : Int
  cookie : List Char
deriving DecidableEq

/-- The handler's locals after the cookie has been read (source lines 143-198); `show_flag` is
the local `show`, `overrun` records a `sprintf` past the end of `buffer`. -/
structure locals where
  i : Int
  show_flag : Int
  config_treasure : Int
  config_damage : Int
  cookie : List Char
  overrun : Bool
deriving DecidableEq

/-- What the handler hands back to the server: its return value, the `Set-Cookie` header, the
content type and the body written with `ap_rprintf`. -/
structure response where
  status : Int
  set_cookie : Option (List Char)
  content_type : Option (List Char)
  body : List Char
  overrun : Bool
deriving DecidableEq

/-- Apache `OK`. -/
def OK : Int := 0

/-- Apache `DECLINED`. -/
def DECLINED : Int := -1

/-- Size of `char buffer[10]`. -/
def BUFFER_SIZE : Nat := 10

/-- Size of `char choices[100]`. -/
def CHOICES_SIZE : Nat := 100

/-- Whether `sprintf(buffer, "%i", v)` writes past the end of `buffer`: the text and its NUL
need more than `BUFFER_SIZE` bytes. -/
def sprintf_overruns (text : List Char) : Bool :=
  decide (BUFFER_SIZE < text.length + 1)

/-! ## replace_str (source lines 446-475) -/

/-- The copy loop of `replace_str` followed by its final `strcpy`: `p` is the text still to be
scanned, `acc` the text written to `ret` so far. Every turn copies the text before the next
occurrence of `old`, then `new`, and resumes after the occurrence. `none` when `fuel` turns do
not end the loop (with an empty `old` the C loop never ends). -/
def replace_loop (old new : List Char) : Nat → List Char → List Char → Option (List Char)
  | 0, _, _ => none
  | fuel + 1, p, acc =>
    match strstr p old with
    | none => some (acc ++ p)
    | some l => replace_loop old new fuel (p.drop (l + old.length)) (acc ++ p.take l ++ new)

/-- The counting loop of `replace_str`: the number of occurrences found and the text left after
the last one (`strlen(p)` at the exit of the loop). -/
def count_loop (old : List Char) : Nat → List Char → Nat → Option (Nat × List Char)
  | 0, _, _ => none
  | fuel + 1, p, count =>
    match strstr p old with
    | none => some (count, p)
    | some l => count_loop old fuel (p.drop (l + old.length)) (count + 1)

/-- The value of `retlen` in `replace_str`, computed in `size_t` arithmetic modulo `2^64`:
`p - str + strlen(p) + count * (newlen - oldlen)` when the lengths differ, `strlen(str)`
otherwise. -/
def replace_str_retlen (str old new : List Char) : Option Nat :=
  if old.length ≠ new.length then
    (count_loop old (str.length + 1) str 0).map (fun cp =>
      ((str.length - cp.2.length) + cp.2.length
        + cp.1 * ((new.length + 2 ^ 64 - old.length) % 2 ^ 64)) % 2 ^ 64)
  else some str.length

/-- The text `replace_str(str, old, new)` writes to its result with the copy loop and the
final `strcpy`. It is the string returned when that text fits the block of `retlen + 1`
bytes: see `replace_str_checked`. -/
def replace_str (str old new : List Char) : Option (List Char) :=
  replace_loop old new (str.length + 1) str []

/-! ## choose_handler (source lines 134-298) -/

/-- Text of the string literal the handler compares `r->filename` with. -/
def entry_filename : List Char := "/var/www/html/cyp".toList

/-- One turn of the `while (cookie_values)` loop (source lines 171-190) on the token `tok`.
The sum and the difference are converted to `int`, and `overrun` is set when `sprintf` leaves
`buffer`: beyond `int`, and once `overrun` is set, C leaves the behaviour undefined. -/
def cookie_token (config : choose_config) (l : locals) (tok : List Char) : Option locals :=
  (if l.i = 0 then
      config.treasure.map (fun treasure =>
        let cookie_treasure := to_int (strtol tok)
        let config_treasure := to_int (to_int (strtol treasure) + cookie_treasure)
        let buffer := fmt_i config_treasure
        { l with config_treasure := config_treasure
                 cookie := buffer
                 overrun := l.overrun || sprintf_overruns buffer })
    else some l).bind (fun l1 =>
  (if l1.i = 1 then
      config.damage.map (fun damage =>
        let cookie_health := to_int (strtol tok)
        let config_damage := to_int (cookie_health - to_int (strtol damage))
        let buffer := fmt_i config_damage
        { l1 with config_damage := config_damage
                  cookie := l1.cookie ++ [ '&' ] ++ buffer
                  overrun := l1.overrun || sprintf_overruns buffer })
    else some l1).bind (fun l2 =>
  some { l2 with i := l2.i + 1 }))

/-- The `while (cookie_values)` loop: `pending` is the result of the last `strtok` call. -/
def cookie_loop (config : choose_config) :
    Nat → Option (List Char × List Char) → locals → Option locals
  | _, none, l => some l
  | 0, some _, _ => none
  | fuel + 1, some (tok, rest), l =>
    (cookie_token config l tok).bind (cookie_loop config fuel (strtok rest))

/-- Source lines 143-198: the locals once the Cookie header has been read, or defaulted.
`lit_addr` is the address of the string literal `"/var/www/html/cyp"`: the handler compares
`r->filename` with it as a pointer. -/
def read_cookie (lit_addr : Nat) (g : stack_garbage) (r : request_rec)
    (config : choose_config) : Option locals :=
  let l0 : locals :=
    { i := 0, show_flag := 1, config_treasure := g.config_treasure
      config_damage := g.config_damage, cookie := g.cookie, overrun := false }
  match r.cookie_data with
  | some cookie_data => cookie_loop config (cookie_data.length + 1) (strtok cookie_data) l0
  | none =>
    some { l0 with show_flag := if r.filename.addr ≠ lit_addr then 0 else 1
                   cookie := "0&1000".toList }

/-- The text the format
`<p><--<a href="%s">%s</a> (O) <a href="%s">%s</a> --></p>` gives for the four choice fields. -/
def choices_text (config : choose_config) : List Char :=
  "<p><--<a href=\"".toList ++ fmt_s config.move_left ++ "\">".toList
    ++ fmt_s config.move_left_title ++ "</a> (O) <a href=\"".toList
    ++ fmt_s config.move_right ++ "\">".toList ++ fmt_s config.move_right_title
    ++ "</a> --></p>".toList

/-- The five banner lines of the default layout (source lines 213-217). -/
def banner : List Char :=
  "<pre> @@@@@@@ @@@  @@@  @@@@@@   @@@@@@   @@@@@@ @@@@@@@@    @@@ @@@  @@@@@@  @@@  @@@ @@@@@@@     @@@@@@@   @@@@@@  @@@@@@@ @@@  @@@<br />".toList
    ++ "!@@      @@!  @@@ @@!  @@@ @@!  @@@ !@@     @@!         @@! !@@ @@!  @@@ @@!  @@@ @@!  @@@    @@!  @@@ @@!  @@@   @!!   @@!  @@@<br />".toList
    ++ "!@!      @!@!@!@! @!@  !@! @!@  !@!  !@@!!  @!!!:!       !@!@!  @!@  !@! @!@  !@! @!@!!@!     @!@@!@!  @!@!@!@!   @!!   @!@!@!@!<br />".toList
    ++ ":!!      !!:  !!! !!:  !!! !!:  !!!     !:! !!:           !!:   !!:  !!! !!:  !!! !!: :!!     !!:      !!:  !!!   !!:   !!:  !!!<br />".toList
    ++ " :: :: :  :   : :  : :. :   : :. :  ::.: :  : :: ::       .:     : :. :   :.:: :   :   : :     :        :   : :    :     :   : : </pre>".toList

/-- The default layout (source lines 212-234). -/
def default_layout (l : locals) (config : choose_config) : List Char :=
  banner
    ++ "Treasure: ".toList ++ fmt_i l.i ++ " Int: ".toList ++ fmt_i l.config_treasure
    ++ "<br />".toList
    ++ "Health: ".toList ++ fmt_i l.i ++ " Int: ".toList ++ fmt_i l.config_damage
    ++ "<br />".toList
    ++ "<h3>".toList ++ fmt_s config.level_title ++ "</h3>".toList
    ++ "<p>".toList ++ fmt_s config.level_description ++ "</p>".toList
    ++ choices_text config
    ++ "<p>--Stats--</p>".toList
    ++ "<p>Gained ".toList ++ fmt_s config.treasure ++ " treasure</p>".toList
    ++ "<p>Took ".toList ++ fmt_s config.damage ++ " damange</p>".toList

/-- The templated layout (source lines 238-290) for the template text `template`: the text of
the six `replace_str` calls in source order. `snprintf` cuts the choices fragment to what fits
in `choices` with its NUL. A `NULL` replacement makes `strlen` dereference `NULL`. The blocks
of the copy of the template and of the six results are checked in
`templated_layout_checked`. -/
def templated_layout (config : choose_config) (template : List Char) : Option (List Char) :=
  (replace_str template "\x7b\x7btitle\x7d\x7d".toList "Choose Your Path".toList).bind (fun p1 =>
  config.damage.bind (fun damage =>
  (replace_str p1 "\x7b\x7bhealth\x7d\x7d".toList damage).bind (fun p2 =>
  config.treasure.bind (fun treasure =>
  (replace_str p2 "\x7b\x7btreasure\x7d\x7d".toList treasure).bind (fun p3 =>
  (replace_str p3 "\x7b\x7bchoices\x7d\x7d".toList
    ((choices_text config).take (CHOICES_SIZE - 1))).bind (fun p4 =>
  config.level_title.bind (fun level_title =>
  (replace_str p4 "\x7b\x7bstageTitle\x7d\x7d".toList level_title).bind (fun p5 =>
  config.level_description.bind (fun level_description =>
  replace_str p5 "\x7b\x7bdescription\x7d\x7d".toList level_description)))))))))

/-- The body written when `show == 0` (source line 294). -/
def start_over : List Char :=
  "<h2>You must start at the beginning.<br /><a href=\x27/cyp\x27>Start Here</a></h2><br /><br /><br >".toList

/-- Source lines 209-295: the body for the locals `l`. -/
def render (l : locals) (config : choose_config) : Option (List Char) :=
  match config.theme_template with
  | none =>
    if l.show_flag = 1 then some (default_layout l config)
    else if l.show_flag = 0 then some start_over
    else some []
  | some template =>
    if l.show_flag = 1 then templated_layout config template
    else if l.show_flag = 0 then some start_over
    else some []

/-- The request handler `choose_handler`. -/
def choose_handler (lit_addr : Nat) (g : stack_garbage) (r : request_rec)
    (config : choose_config) : Option response :=
  if r.handler ≠ some "choose-handler".toList then
    some { status := DECLINED, set_cookie := none, content_type := none, body := []
           overrun := false }
  else
    (read_cookie lit_addr g r config).bind (fun l =>
    (render l config).map (fun body =>
      { status := OK, set_cookie := some l.cookie, content_type := some "text/html".toList
        body := body, overrun := l.overrun }))

/-! ## Configuration (source lines 306-440) -/

/-- Directive `damage`. -/
def choose_set_damage (cfg : Option choose_config) (arg : List Char) : Option choose_config :=
  cfg.map (fun conf => { conf with damage := some arg })

/-- Directive `treasure`. -/
def choose_set_treasure (cfg : Option choose_config) (arg : List Char) : Option choose_config :=
  cfg.map (fun conf => { conf with treasure := some arg })

/-- Directive `moveRight`. -/
def choose_set_move_right (cfg : Option choose_config) (arg1 arg2 : List Char) :
    Option choose_config :=
  cfg.map (fun conf => { conf with move_right := some arg1, move_right_title := some arg2 })

/-- Directive `moveLeft`. -/
def choose_set_move_left (cfg : Option choose_config) (arg1 arg2 : List Char) :
    Option choose_config :=
  cfg.map (fun conf => { conf with move_left := some arg1, move_left_title := some arg2 })

/-- Directive `levelDescription`. -/
def choose_set_level_description (cfg : Option choose_config) (arg : List Char) :
    Option choose_config :=
  cfg.map (fun conf => { conf with level_description := some arg })

/-- Directive `levelTitle`. -/
def choose_set_level_title (cfg : Option choose_config) (arg : List Char) :
    Option choose_config :=
  cfg.map (fun conf => { conf with level_title := some arg })

/-- The configuration `choose_default_conf` allocates with `apr_pcalloc`: every field `NULL`. -/
def choose_default_conf : choose_config :=
  { level_title := none, level_description := none, move_left := none, move_left_title := none
    move_right := none, move_right_title := none, treasure := none, damage := none
    theme_template := none }

/-- The ternary `(add->f == NULL) ? base->f : add->f` of `choose_merge_conf`. -/
def merge_field (base add : Option (List Char)) : Option (List Char) :=
  match add with
  | none => base
  | some v => some v

/-- The merge `choose_merge_conf(pool, BASE, ADD)`. -/
def choose_merge_conf (base add : choose_config) : choose_config :=
  let conf : choose_config :=
    { level_description := merge_field base.level_description add.level_description
      level_title := merge_field base.level_title add.level_title
      move_left := merge_field base.move_left add.move_left
      move_left_title := merge_field base.move_left_title add.move_left_title
      move_right := merge_field base.move_right add.move_right
      move_right_title := merge_field base.move_right_title add.move_right_title
      treasure := merge_field base.treasure add.treasure
      damage := merge_field base.damage add.damage
      theme_template := merge_field base.theme_template add.theme_template }
  if conf.move_left = none then
    { conf with move_left := some [], move_left_title := some [] }
  else conf

/-! ## The specification's vocabulary -/

/-- The wire form of the state `(treasure, health)` (spec 4.1 `encode`): the two integers in
base 10, joined by `&`. -/
def encode (treasure health : Int) : List Char :=
  fmt_i treasure ++ [ '&' ] ++ fmt_i health

/-- The base-10 value of a string of decimal digits. -/
def decimal_value (ds : List Char) : Nat :=
  ds.foldl (fun acc c => acc * 10 + (c.toNat - 48)) 0

/-- Put `c` in front of the first piece. -/
def push_front (c : Char) : List (List Char) → List (List Char)
  | [] => [[c]]
  | p :: ps => (c :: p) :: ps

/-- The pieces of a text between the left-to-right non-overlapping occurrences of `old`
(spec 4.4): scanning from the left, an occurrence of `old` at the current position closes the
current piece and its characters are skipped (`skip` counts those left to skip); any other
character joins the current piece. -/
def split_on (old : List Char) : Nat → List Char → List (List Char)
  | _, [] => [[]]
  | skip + 1, _ :: cs => split_on old skip cs
  | 0, c :: cs =>
    if old.isPrefixOf (c :: cs) then [] :: split_on old (old.length - 1) cs
    else push_front c (split_on old 0 cs)

/-- The descriptor is resolved as far as the handler needs: the fields it passes to `strtol`
and `strlen` are not `NULL` (the four choice fields are only printed). -/
def resolved (config : choose_config) : Prop :=
  config.level_title ≠ none ∧ config.level_description ≠ none
    ∧ config.treasure ≠ none ∧ config.damage ≠ none

instance (config : choose_config) : Decidable (resolved config) := by
  unfold resolved
  exact inferInstance

/-- Whether a text starts with a decimal digit. -/
def starts_with_digit : List Char → Bool
  | [] => false
  | c :: _ => isdigit c

/-- Whether a text has a numeric prefix: after optional white space and an optional sign comes
a decimal digit. -/
def has_numeric_prefix (s : List Char) : Bool :=
  match s.dropWhile isspace with
  | [] => false
  | c :: cs => if c = '-' ∨ c = '+' then starts_with_digit cs else isdigit c

/-- The values of type `int`. -/
def fits_int (v : Int) : Prop := -2147483648 ≤ v ∧ v ≤ 2147483647

instance (v : Int) : Decidable (fits_int v) := by
  unfold fits_int
  exact inferInstance

/-- The values whose `%i` text, with its NUL, fits in a buffer of 10 bytes. -/
def fits_buffer (v : Int) : Prop := -99999999 ≤ v ∧ v ≤ 999999999

instance (v : Int) : Decidable (fits_buffer v) := by
  unfold fits_buffer
  exact inferInstance

/-- The text of an integer field as the claims speak of it: an integer written in base 10 as
by `%i`, or a text without numeric prefix. -/
inductive int_field where
  | number (v : Int)
  | unparsable (s : List Char)
deriving DecidableEq

/-- The text of a field. -/
def int_field.text : int_field → List Char
  | int_field.number v => fmt_i v
  | int_field.unparsable s => s

/-- The value a field stands for: an unparsable text counts as 0. -/
def int_field.value : int_field → Int
  | int_field.number v => v
  | int_field.unparsable _ => 0

/-- The fields considered: the values of type `int`, and the texts without numeric prefix. -/
def int_field.admissible : int_field → Prop
  | int_field.number v => fits_int v
  | int_field.unparsable s => has_numeric_prefix s = false

instance (f : int_field) : Decidable f.admissible := by
  cases f <;> unfold int_field.admissible <;> exact inferInstance

/-! ## Requests and descriptors of the scenarios -/

/-- An address for the string literal `"/var/www/html/cyp"` in the module's read-only data. -/
def literal_addr : Nat := 4096

/-- Some stack contents for the handler's unassigned locals. -/
def stale : stack_garbage :=
  { config_treasure := 32767, config_damage := -1, cookie := "\x01\x7f".toList }

/-- The sample level of the source's header comment, with the given reward, damage and
template. -/
def stage2 (treasure damage : List Char) (template : Option (List Char)) : choose_config :=
  { level_title := some "Stage 2: Steps to a house.".toList
    level_description := some "Stage 2".toList
    move_left := some "/cyp".toList
    move_left_title := some "Back to stage 1.".toList
    move_right := some "/cyp/stage3".toList
    move_right_title := some "Stage 3.".toList
    treasure := some treasure
    damage := some damage
    theme_template := template }

/-- A request for the handler: `r->filename` points into the request pool, away from the
module's literals. -/
def get (filename : List Char) (cookie : Option (List Char)) : request_rec :=
  { handler := some "choose-handler".toList
    filename := { addr := 140737488355328, text := filename }
    cookie_data := cookie }

/-- A request whose `r->filename` is the very pointer of the handler's string literal. -/
def get_literal (cookie : Option (List Char)) : request_rec :=
  { handler := some "choose-handler".toList
    filename := { addr := literal_addr, text := entry_filename }
    cookie_data := cookie }

/-- A first level as `choose_merge_conf` hands it over when no level sets `moveLeft`: left
path and left label are both empty. -/
def first_level : choose_config :=
  { level_title := some "Stage 1".toList
    level_description := some "A road.".toList
    move_left := some []
    move_left_title := some []
    move_right := some "/cyp/stage2".toList
    move_right_title := some "Stage 2.".toList
    treasure := some "0".toList
    damage := some "0".toList
    theme_template := none }

/-- A level with a long right label and the template `{{choices}}`. -/
def long_level : choose_config :=
  { level_title := some "Stage 2".toList
    level_description := some "A fork.".toList
    move_left := some "/cyp".toList
    move_left_title := some "Back to stage 1.".toList
    move_right := some "/cyp/stage3".toList
    move_right_title := some "Follow the narrow path down to the river.".toList
    treasure := some "0".toList
    damage := some "0".toList
    theme_template := some "\x7b\x7bchoices\x7d\x7d".toList }

/-! ## Vocabulary of the claims on segments, pieces and merging -/

/-- The text `snprintf` leaves in `char choices[100]` (source lines 264-270): the choices text
cut to what fits with its NUL. It is the replacement `templated_layout` passes for
`{{choices}}`. -/
def choices_fragment (config : choose_config) : List Char :=
  (choices_text config).take (CHOICES_SIZE - 1)

/-- The segments of a header split on every `&` (spec 4.1), empty segments included. -/
def segments : List Char → List (List Char)
  | [] => [[]]
  | c :: cs => if c = '&' then [] :: segments cs else push_front c (segments cs)

/-- The number of left-to-right non-overlapping occurrences of `old` in `str`: one less than
the number of pieces. -/
def occurrences (old str : List Char) : Nat :=
  (split_on old 0 str).length - 1

/-- The left choice of a configuration is a pair: path and label are both set or both unset. -/
def left_paired (config : choose_config) : Prop :=
  config.move_left = none ↔ config.move_left_title = none

instance (config : choose_config) : Decidable (left_paired config) := by
  unfold left_paired
  exact inferInstance

/-- The merged field is the child's value when the child sets it, the parent's otherwise. -/
def overrides (merged base add : Option (List Char)) : Prop :=
  (add ≠ none → merged = add) ∧ (add = none → merged = base)

/-- The value `size_t` arithmetic wraps at. -/
def SIZE_MODULUS : Nat := 2 ^ 64

/-! ## Vocabulary of the bounds: where every write stays inside its block -/

/-- The string `replace_str` returns, its allocation taken into account: the block has
`retlen + 1` bytes, and the copy loop with the final `strcpy` writes the text and its NUL.
`none` when a loop does not end, and when the text does not fit the block, where the copy
writes past it (undefined in C). -/
def replace_str_checked (str old new : List Char) : Option (List Char) :=
  (replace_str_retlen str old new).bind (fun retlen =>
    (replace_str str old new).bind (fun out =>
      if out.length ≤ retlen then some out else none))

/-- The bytes a block of glibc's `malloc(n)` holds on LP64: chunks are multiples of 16 bytes
with 8 bytes of header, and hold at least 24 bytes. -/
def malloc_usable (n : Nat) : Nat :=
  if n ≤ 24 then 24 else (n + 23) / 16 * 16 - 8

/-- The templated layout with every block taken into account (source lines 238-290):
`strcpy(old_template, ..)` writes the template and its NUL into the block of
`malloc(strlen(template))`, and each `replace_str` call must fit its own block. `none` when a
write leaves its block. -/
def templated_layout_checked (config : choose_config) (template : List Char) :
    Option (List Char) :=
  if template.length + 1 ≤ malloc_usable template.length then
    (replace_str_checked template "\x7b\x7btitle\x7d\x7d".toList
      "Choose Your Path".toList).bind (fun p1 =>
    config.damage.bind (fun damage =>
    (replace_str_checked p1 "\x7b\x7bhealth\x7d\x7d".toList damage).bind (fun p2 =>
    config.treasure.bind (fun treasure =>
    (replace_str_checked p2 "\x7b\x7btreasure\x7d\x7d".toList treasure).bind (fun p3 =>
    (replace_str_checked p3 "\x7b\x7bchoices\x7d\x7d".toList
      ((choices_text config).take (CHOICES_SIZE - 1))).bind (fun p4 =>
    config.level_title.bind (fun level_title =>
    (replace_str_checked p4 "\x7b\x7bstageTitle\x7d\x7d".toList level_title).bind (fun p5 =>
    config.level_description.bind (fun level_description =>
    replace_str_checked p5 "\x7b\x7bdescription\x7d\x7d".toList level_description)))))))))
  else none

/-- Whether the conversions of the cookie loop stay inside `int` and inside `buffer`: for the
first token of the header, the treasure read from it plus the reward, and for the second
token, the health read from it minus the damage, are values whose `%i` text fits the buffer. -/
def conversions_fit (config : choose_config) (header : List Char) : Bool :=
  match strtok header with
  | none => true
  | some first =>
    decide (fits_buffer (to_int (strtol (config.treasure.getD [])) + to_int (strtol first.1)))
      && match strtok first.2 with
        | none => true
        | some second =>
          decide (fits_buffer
            (to_int (strtol second.1) - to_int (strtol (config.damage.getD []))))

/-- A numeral as the claims speak of it: an optional sign, decimal digits and a tail. -/
structure numeral where
  sign : List Char
  digits : List Char
  tail : List Char
deriving DecidableEq

/-- The text of a numeral. -/
def numeral.text (n : numeral) : List Char :=
  n.sign ++ n.digits ++ n.tail

/-- The base-10 value of the sign-and-digits prefix of a numeral. -/
def numeral.value (n : numeral) : Int :=
  if n.sign = [ '-' ] then -((decimal_value n.digits : Nat) : Int)
  else ((decimal_value n.digits : Nat) : Int)

/-- The shape of a numeral: no sign, `+` or `-`; one or more decimal digits; a tail that does
not start with a digit. -/
def numeral.shaped (n : numeral) : Prop :=
  (n.sign = [] ∨ n.sign = [ '+' ] ∨ n.sign = [ '-' ]) ∧ n.digits ≠ []
    ∧ (∀ c ∈ n.digits, isdigit c = true) ∧ starts_with_digit n.tail = false

instance (n : numeral) : Decidable n.shaped := by
  unfold numeral.shaped
  exact inferInstance

/-- The hexadecimal number a tail spells after a lone `0`: the value of the hexadecimal
digits that follow an `x` or `X`, and 0 for any other tail. -/
def hex_tail_value : List Char → Nat
  | [] => 0
  | x :: t => if x = 'x' ∨ x = 'X' then strtol_digits 16 0 t else 0

/-- The numerals that `strtol` with base 0 reads as their base-10 value and that are values
of type `int`: the digits do not start with `0`, or their value is at most 7 (zeros, then at
most one digit up to 7) and a lone `0` is not the start of a hexadecimal number other than
0. -/
def numeral.read_in_base_ten (n : numeral) : Prop :=
  (n.digits.head? ≠ some '0'
      ∨ (decimal_value n.digits ≤ 7 ∧ (n.digits = [ '0' ] → hex_tail_value n.tail = 0)))
    ∧ fits_int n.value

instance (n : numeral) : Decidable n.read_in_base_ten := by
  unfold numeral.read_in_base_ten
  exact inferInstance

/-! ## Lemmas on the C library layer -/

theorem isdigit_bounds {c : Char} (h : isdigit c = true) : 48 ≤ c.toNat ∧ c.toNat ≤ 57 := by
  simpa [isdigit] using h

theorem digit_value_of_isdigit {c : Char} (h : isdigit c = true) :
    digit_value c = some (c.toNat - 48) := by
  have hb := isdigit_bounds h
  simp [digit_value, hb.1, hb.2]

theorem isdigit_ne {c : Char} (h : isdigit c = true) (x : Char) (hx : isdigit x = false) :
    c ≠ x := by
  intro hcx
  rw [hcx, hx] at h
  exact Bool.false_ne_true h

theorem isspace_of_isdigit {c : Char} (h : isdigit c = true) : isspace c = false := by
  have hb := isdigit_bounds h
  have h1 : c ≠ ' ' := fun e => by rw [e] at hb; revert hb; decide
  have h2 : c ≠ '\t' := fun e => by rw [e] at hb; revert hb; decide
  have h3 : c ≠ '\n' := fun e => by rw [e] at hb; revert hb; decide
  have h4 : c ≠ '\x0b' := fun e => by rw [e] at hb; revert hb; decide
  have h5 : c ≠ '\x0c' := fun e => by rw [e] at hb; revert hb; decide
  have h6 : c ≠ '\r' := fun e => by rw [e] at hb; revert hb; decide
  simp [isspace, h1, h2, h3, h4, h5, h6]

/-- The digit loop stops at a character that is not a decimal digit. -/
theorem strtol_digits_stop (acc : Nat) (c : Char) (t : List Char) (hc : isdigit c = false) :
    strtol_digits 10 acc (c :: t) = acc := by
  have hc2 : ¬ (48 ≤ c.toNat ∧ c.toNat ≤ 57) := by
    intro h
    simp [isdigit, h.1, h.2] at hc
  unfold strtol_digits
  unfold digit_value
  rw [if_neg hc2]
  by_cases h1 : 97 ≤ c.toNat ∧ c.toNat ≤ 122
  · rw [if_pos h1]
    have : ¬ (c.toNat - 87 < 10) := by omega
    simp [this]
  · rw [if_neg h1]
    by_cases h2 : 65 ≤ c.toNat ∧ c.toNat ≤ 90
    · rw [if_pos h2]
      have : ¬ (c.toNat - 55 < 10) := by omega
      simp [this]
    · rw [if_neg h2]

/-- On a run of decimal digits followed by a tail that does not start with a digit, the digit
loop in base 10 computes the base-10 value of the run. -/
theorem strtol_digits_decimal (ds tail : List Char) (acc : Nat)
    (hds : ∀ c ∈ ds, isdigit c = true)
    (htail : ∀ c, tail.head? = some c → isdigit c = false) :
    strtol_digits 10 acc (ds ++ tail)
      = ds.foldl (fun a c => a * 10 + (c.toNat - 48)) acc := by
  induction ds generalizing acc with
  | nil =>
    cases tail with
    | nil => simp [strtol_digits]
    | cons c t =>
      simpa using strtol_digits_stop acc c t (htail c rfl)
  | cons d ds ih =>
    have hd : isdigit d = true := hds d (List.mem_cons_self _ _)
    have hb := isdigit_bounds hd
    have hlt : d.toNat - 48 < 10 := by omega
    have ih2 := ih (acc * 10 + (d.toNat - 48)) (fun c hc => hds c (List.mem_cons_of_mem _ hc))
    simp only [List.cons_append, List.foldl_cons]
    rw [← ih2]
    conv_lhs => unfold strtol_digits
    rw [digit_value_of_isdigit hd]
    simp [hlt]

theorem decimal_value_append (l : List Char) (c : Char) :
    decimal_value (l ++ [c]) = decimal_value l * 10 + (c.toNat - 48) := by
  simp [decimal_value, List.foldl_append]

theorem toNat_digit (n : Nat) (h : n < 10) : (Char.ofNat (48 + n)).toNat = 48 + n := by
  interval_cases n <;> rfl

theorem isdigit_digit (n : Nat) (h : n < 10) : isdigit (Char.ofNat (48 + n)) = true := by
  interval_cases n <;> rfl

theorem fmt_digits_isdigit (fuel n : Nat) : ∀ c ∈ fmt_digits fuel n, isdigit c = true := by
  induction fuel generalizing n with
  | zero => simp [fmt_digits]
  | succ fuel ih =>
    intro c hc
    unfold fmt_digits at hc
    split at hc
    · rename_i h
      simp only [List.mem_singleton] at hc
      rw [hc]
      exact isdigit_digit n h
    · simp only [List.mem_append, List.mem_singleton] at hc
      rcases hc with hc | hc
      · exact ih _ c hc
      · rw [hc]
        exact isdigit_digit _ (Nat.mod_lt _ (by decide))

theorem fmt_digits_value (fuel n : Nat) (h : n < 10 ^ fuel) :
    decimal_value (fmt_digits fuel n) = n := by
  induction fuel generalizing n with
  | zero => simp at h; subst h; rfl
  | succ fuel ih =>
    unfold fmt_digits
    split
    · rename_i h10
      simp [decimal_value, toNat_digit n h10]
    · rename_i h10
      rw [decimal_value_append, ih (n / 10), toNat_digit _ (Nat.mod_lt _ (by decide))]
      · omega
      · rw [pow_succ] at h
        omega

theorem fmt_digits_length_pos (fuel n : Nat) : 0 < (fmt_digits (fuel + 1) n).length := by
  unfold fmt_digits
  split <;> simp

theorem fmt_digits_length_le (fuel k n : Nat) (hk : 0 < k) (h : n < 10 ^ k) :
    (fmt_digits fuel n).length ≤ k := by
  induction fuel generalizing n k with
  | zero => simp [fmt_digits]
  | succ fuel ih =>
    unfold fmt_digits
    split
    · simp; omega
    · rename_i h10
      obtain ⟨k, rfl⟩ : ∃ j, k = j + 1 := ⟨k - 1, by omega⟩
      have hk0 : 0 < k := by
        rcases Nat.eq_zero_or_pos k with h0 | h0
        · subst h0; simp at h; omega
        · exact h0
      have := ih k (n / 10) hk0 (by rw [pow_succ] at h; omega)
      simp only [List.length_append, List.length_singleton]
      omega

/-- The first digit `%i` writes for a positive value is not `0`. -/
theorem fmt_digits_head (fuel n : Nat) (hn : 0 < n) (h : n < 10 ^ fuel) :
    ∃ d ds, fmt_digits fuel n = d :: ds ∧ d ≠ '0' := by
  induction fuel generalizing n with
  | zero => simp at h; omega
  | succ fuel ih =>
    unfold fmt_digits
    split
    · rename_i h10
      refine ⟨_, [], rfl, ?_⟩
      interval_cases n <;> decide
    · rename_i h10
      obtain ⟨d, ds, hds, hd⟩ := ih (n / 10) (by omega) (by rw [pow_succ] at h; omega)
      exact ⟨d, ds ++ [Char.ofNat (48 + n % 10)], by rw [hds]; rfl, hd⟩

theorem lt_ten_pow_succ (n : Nat) : n < 10 ^ (n + 1) :=
  lt_of_lt_of_le (Nat.lt_pow_self (by decide) n) (Nat.pow_le_pow_right (by decide) (Nat.le_succ n))

/-! ## Lemmas on replace_str -/

theorem isPrefixOf_nil_right (old : List Char) (h : old ≠ []) : old.isPrefixOf [] = false := by
  cases old with
  | nil => exact absurd rfl h
  | cons a t => rfl

theorem strstr_nil (old : List Char) (h : old ≠ []) : strstr [] old = none := by
  unfold strstr
  simp [isPrefixOf_nil_right old h]

theorem strstr_cons_pos (c : Char) (cs old : List Char) (h : old.isPrefixOf (c :: cs) = true) :
    strstr (c :: cs) old = some 0 := by
  unfold strstr
  simp [h]

theorem strstr_cons_neg (c : Char) (cs old : List Char) (h : old.isPrefixOf (c :: cs) = false) :
    strstr (c :: cs) old = (strstr cs old).map (fun l => l + 1) := by
  conv_lhs => unfold strstr
  simp [h]

theorem split_on_ne_nil (old : List Char) (k : Nat) (s : List Char) : split_on old k s ≠ [] := by
  induction s generalizing k with
  | nil => simp [split_on]
  | cons c cs ih =>
    cases k with
    | zero =>
      unfold split_on
      split
      · simp
      · cases hsp : split_on old 0 cs with
        | nil => exact absurd hsp (ih 0)
        | cons p ps => simp [push_front]
    | succ k =>
      unfold split_on
      exact ih k

/-- Skipping `k` characters of an occurrence is dropping them. -/
theorem split_on_skip (old : List Char) (k : Nat) (s : List Char) :
    split_on old k s = split_on old 0 (s.drop k) := by
  induction s generalizing k with
  | nil => simp [split_on]
  | cons c cs ih =>
    cases k with
    | zero => rfl
    | succ k =>
      rw [List.drop_succ_cons, ← ih k]
      rfl

theorem intercalate_cons_of_ne_nil (sep p : List Char) (ps : List (List Char)) (h : ps ≠ []) :
    sep.intercalate (p :: ps) = p ++ sep ++ sep.intercalate ps := by
  cases ps with
  | nil => exact absurd rfl h
  | cons q qs => simp [List.intercalate, List.intersperse]

theorem intercalate_push_front (sep : List Char) (c : Char) (ps : List (List Char))
    (h : ps ≠ []) : sep.intercalate (push_front c ps) = c :: sep.intercalate ps := by
  cases ps with
  | nil => exact absurd rfl h
  | cons q qs =>
    cases qs with
    | nil => simp [push_front, List.intercalate, List.intersperse]
    | cons q2 qs2 => simp [push_front, List.intercalate, List.intersperse]

/-- The empty text has one empty piece. -/
theorem join_nil (old new : List Char) : new.intercalate (split_on old 0 []) = [] := by
  simp [split_on, List.intercalate, List.intersperse]

theorem join_cons_pos (old new : List Char) (c : Char) (cs : List Char) (hold : old ≠ [])
    (h : old.isPrefixOf (c :: cs) = true) :
    new.intercalate (split_on old 0 (c :: cs))
      = new ++ new.intercalate (split_on old 0 ((c :: cs).drop old.length)) := by
  obtain ⟨n, hn⟩ : ∃ n, old.length = n + 1 :=
    ⟨old.length - 1, by have := List.length_pos.mpr hold; omega⟩
  conv_lhs => unfold split_on
  rw [if_pos h, intercalate_cons_of_ne_nil _ _ _ (split_on_ne_nil _ _ _), split_on_skip]
  rw [hn]
  simp

theorem join_cons_neg (old new : List Char) (c : Char) (cs : List Char)
    (h : old.isPrefixOf (c :: cs) = false) :
    new.intercalate (split_on old 0 (c :: cs)) = c :: new.intercalate (split_on old 0 cs) := by
  conv_lhs => unfold split_on
  simp only [h, Bool.false_eq_true, if_false]
  exact intercalate_push_front _ _ _ (split_on_ne_nil _ _ _)

/-- Without an occurrence of `old` the joined pieces are the text itself. -/
theorem join_of_strstr_none (old new : List Char) (s : List Char)
    (h : strstr s old = none) : new.intercalate (split_on old 0 s) = s := by
  induction s with
  | nil => exact join_nil old new
  | cons c cs ih =>
    cases hp : old.isPrefixOf (c :: cs) with
    | true => rw [strstr_cons_pos c cs old hp] at h; exact absurd h (by simp)
    | false =>
      rw [strstr_cons_neg c cs old hp] at h
      rw [join_cons_neg old new c cs hp, ih (by simpa using h)]

/-- With the first occurrence of `old` at offset `l`, the joined pieces are the text before it,
then `new`, then the joined pieces of the text after the occurrence. -/
theorem join_of_strstr_some (old new : List Char) (hold : old ≠ []) (s : List Char) (l : Nat)
    (h : strstr s old = some l) :
    new.intercalate (split_on old 0 s)
      = s.take l ++ new ++ new.intercalate (split_on old 0 (s.drop (l + old.length))) := by
  induction s generalizing l with
  | nil => rw [strstr_nil old hold] at h; exact absurd h (by simp)
  | cons c cs ih =>
    cases hp : old.isPrefixOf (c :: cs) with
    | true =>
      rw [strstr_cons_pos c cs old hp] at h
      have hl : l = 0 := by simpa using h.symm
      subst hl
      rw [join_cons_pos old new c cs hold hp]
      simp
    | false =>
      rw [strstr_cons_neg c cs old hp] at h
      cases hs : strstr cs old with
      | none => rw [hs] at h; exact absurd h (by simp)
      | some l2 =>
        rw [hs] at h
        have hl : l = l2 + 1 := by simpa using h.symm
        subst hl
        rw [join_cons_neg old new c cs hp, ih l2 hs]
        have : l2 + 1 + old.length = (l2 + old.length) + 1 := by omega
        rw [this]
        simp

theorem strstr_some_ne_nil (old : List Char) (hold : old ≠ []) (s : List Char) (l : Nat)
    (h : strstr s old = some l) : 0 < s.length := by
  cases s with
  | nil => rw [strstr_nil old hold] at h; exact absurd h (by simp)
  | cons c cs => simp

/-- With enough fuel the copy loop writes the joined pieces after what was written. -/
theorem replace_loop_eq (old new : List Char) (hold : old ≠ []) (fuel : Nat) (p acc : List Char)
    (hf : p.length < fuel) :
    replace_loop old new fuel p acc = some (acc ++ new.intercalate (split_on old 0 p)) := by
  induction fuel generalizing p acc with
  | zero => omega
  | succ fuel ih =>
    unfold replace_loop
    cases hs : strstr p old with
    | none => simp [join_of_strstr_none old new p hs]
    | some l =>
      have hpos := strstr_some_ne_nil old hold p l hs
      have holdpos := List.length_pos.mpr hold
      simp only
      rw [ih, join_of_strstr_some old new hold p l hs]
      · simp [List.append_assoc]
      · rw [List.length_drop]
        omega

theorem replace_str_eq (str old new : List Char) (hold : old ≠ []) :
    replace_str str old new = some (new.intercalate (split_on old 0 str)) := by
  unfold replace_str
  rw [replace_loop_eq old new hold _ _ _ (Nat.lt_succ_self _)]
  simp

/-! ## Lemmas on strtol and the text of `%i` -/

theorem to_int_of_range (v : Int) (h1 : -2147483648 ≤ v) (h2 : v ≤ 2147483647) :
    to_int v = v := by
  unfold to_int
  norm_num
  omega

theorem strtol_sign_digit (d : Char) (rest : List Char) (hd : isdigit d = true) :
    strtol_sign (d :: rest) = (false, d :: rest) := by
  have h1 : d ≠ '-' := isdigit_ne hd _ (by decide)
  have h2 : d ≠ '+' := isdigit_ne hd _ (by decide)
  simp [strtol_sign, h1, h2]

theorem strtol_base_nonzero (d : Char) (rest : List Char) (hd0 : d ≠ '0') :
    strtol_base (d :: rest) = (10, d :: rest) := by
  simp [strtol_base, hd0]

/-- The value `strtol` reads from a decimal numeral without leading zero. -/
theorem strtol_unsigned (d : Char) (ds tail : List Char) (hd : isdigit d = true)
    (hd0 : d ≠ '0') (hds : ∀ c ∈ ds, isdigit c = true)
    (htail : ∀ c, tail.head? = some c → isdigit c = false) :
    strtol (d :: ds ++ tail) = min LONG_MAX (decimal_value (d :: ds) : Nat) := by
  have hall : ∀ c ∈ d :: ds, isdigit c = true := by
    intro c hc
    rcases List.mem_cons.mp hc with h | h
    · rw [h]; exact hd
    · exact hds c h
  have hdig := strtol_digits_decimal (d :: ds) tail 0 hall htail
  unfold strtol
  simp only [List.cons_append, List.dropWhile_cons, isspace_of_isdigit hd, Bool.false_eq_true,
    if_false, strtol_sign_digit d _ hd, strtol_base_nonzero d _ hd0]
  rw [← List.cons_append, hdig]
  rfl

theorem strtol_plus (d : Char) (ds tail : List Char) (hd : isdigit d = true)
    (hd0 : d ≠ '0') (hds : ∀ c ∈ ds, isdigit c = true)
    (htail : ∀ c, tail.head? = some c → isdigit c = false) :
    strtol ('+' :: d :: ds ++ tail) = min LONG_MAX (decimal_value (d :: ds) : Nat) := by
  have hall : ∀ c ∈ d :: ds, isdigit c = true := by
    intro c hc
    rcases List.mem_cons.mp hc with h | h
    · rw [h]; exact hd
    · exact hds c h
  have hdig := strtol_digits_decimal (d :: ds) tail 0 hall htail
  have hsp : isspace '+' = false := by decide
  have hsg : strtol_sign ('+' :: (d :: ds ++ tail)) = (false, d :: ds ++ tail) := by
    simp [strtol_sign]
  unfold strtol
  simp only [List.cons_append, List.dropWhile_cons, hsp, Bool.false_eq_true, if_false]
  rw [← List.cons_append, hsg]
  simp only [List.cons_append, strtol_base_nonzero d _ hd0]
  rw [← List.cons_append, hdig]
  rfl

theorem strtol_minus (d : Char) (ds tail : List Char) (hd : isdigit d = true)
    (hd0 : d ≠ '0') (hds : ∀ c ∈ ds, isdigit c = true)
    (htail : ∀ c, tail.head? = some c → isdigit c = false) :
    strtol ('-' :: d :: ds ++ tail) = max LONG_MIN (-((decimal_value (d :: ds) : Nat) : Int)) := by
  have hall : ∀ c ∈ d :: ds, isdigit c = true := by
    intro c hc
    rcases List.mem_cons.mp hc with h | h
    · rw [h]; exact hd
    · exact hds c h
  have hdig := strtol_digits_decimal (d :: ds) tail 0 hall htail
  have hsp : isspace '-' = false := by decide
  have hsg : strtol_sign ('-' :: (d :: ds ++ tail)) = (true, d :: ds ++ tail) := by
    simp [strtol_sign]
  unfold strtol
  simp only [List.cons_append, List.dropWhile_cons, hsp, Bool.false_eq_true, if_false]
  rw [← List.cons_append, hsg]
  simp only [List.cons_append, strtol_base_nonzero d _ hd0]
  rw [← List.cons_append, hdig]
  rfl

theorem fmt_i_nonneg (v : Int) (h : 0 ≤ v) : fmt_i v = fmt_digits (v.natAbs + 1) v.natAbs := by
  unfold fmt_i
  rw [if_neg (by omega)]

theorem fmt_i_neg (v : Int) (h : v < 0) :
    fmt_i v = '-' :: fmt_digits (v.natAbs + 1) v.natAbs := by
  unfold fmt_i
  rw [if_pos h]

/-- Reading back with `strtol` what `%i` wrote gives the value written. -/
theorem strtol_fmt_i (v : Int) (h1 : LONG_MIN ≤ v) (h2 : v ≤ LONG_MAX) :
    strtol (fmt_i v) = v := by
  have hL1 : LONG_MIN = -9223372036854775808 := by norm_num [LONG_MIN]
  have hL2 : LONG_MAX = 9223372036854775807 := by norm_num [LONG_MAX]
  have hval := fmt_digits_value (v.natAbs + 1) v.natAbs (lt_ten_pow_succ _)
  have hdig := fmt_digits_isdigit (v.natAbs + 1) v.natAbs
  rcases lt_trichotomy v 0 with hv | hv | hv
  · obtain ⟨d, ds, hds, hd0⟩ := fmt_digits_head (v.natAbs + 1) v.natAbs (by omega)
      (lt_ten_pow_succ _)
    rw [hds] at hval hdig
    have := strtol_minus d ds [] (hdig d (List.mem_cons_self _ _)) hd0
      (fun c hc => hdig c (List.mem_cons_of_mem _ hc)) (by simp)
    rw [fmt_i_neg v hv, hds]
    simp only [List.append_nil] at this
    rw [this, hval]
    rw [hL1] at h1 ⊢
    omega
  · subst hv
    rfl
  · obtain ⟨d, ds, hds, hd0⟩ := fmt_digits_head (v.natAbs + 1) v.natAbs (by omega)
      (lt_ten_pow_succ _)
    rw [hds] at hval hdig
    have := strtol_unsigned d ds [] (hdig d (List.mem_cons_self _ _)) hd0
      (fun c hc => hdig c (List.mem_cons_of_mem _ hc)) (by simp)
    rw [fmt_i_nonneg v (le_of_lt hv), hds]
    simp only [List.append_nil] at this
    rw [this, hval]
    rw [hL2] at h2 ⊢
    omega

theorem fmt_i_ne_nil (v : Int) : fmt_i v ≠ [] := by
  unfold fmt_i
  split
  · simp
  · exact List.ne_nil_of_length_pos (fmt_digits_length_pos _ _)

theorem fmt_i_no_amp (v : Int) : ∀ c ∈ fmt_i v, c ≠ '&' := by
  intro c hc
  unfold fmt_i at hc
  have key : ∀ c ∈ fmt_digits (v.natAbs + 1) v.natAbs, c ≠ '&' := fun c hc =>
    isdigit_ne (fmt_digits_isdigit _ _ c hc) _ (by decide)
  split at hc
  · rcases List.mem_cons.mp hc with h | h
    · rw [h]; decide
    · exact key c h
  · exact key c hc

/-- A value that fits the buffer has a text of at most 9 characters. -/
theorem fmt_i_length_of_fits (v : Int) (h : fits_buffer v) : (fmt_i v).length ≤ 9 := by
  obtain ⟨h1, h2⟩ := h
  by_cases hv : v < 0
  · rw [fmt_i_neg v hv]
    have := fmt_digits_length_le (v.natAbs + 1) 8 v.natAbs (by decide) (by norm_num; omega)
    simp only [List.length_cons]
    omega
  · rw [fmt_i_nonneg v (by omega)]
    exact fmt_digits_length_le (v.natAbs + 1) 9 v.natAbs (by decide) (by norm_num; omega)

theorem sprintf_overruns_of_fits (v : Int) (h : fits_buffer v) :
    sprintf_overruns (fmt_i v) = false := by
  have := fmt_i_length_of_fits v h
  simp [sprintf_overruns, BUFFER_SIZE]
  omega

/-! ## Lemmas on strtok and the cookie loop -/

theorem takeWhile_stop (p : Char → Bool) (A rest : List Char) (x : Char)
    (hA : ∀ c ∈ A, p c = true) (hx : p x = false) :
    (A ++ x :: rest).takeWhile p = A := by
  induction A with
  | nil => simp [List.takeWhile, hx]
  | cons a A ih =>
    have ha : p a = true := hA a (List.mem_cons_self _ _)
    simp only [List.cons_append, List.takeWhile_cons, ha, if_true]
    rw [ih (fun c hc => hA c (List.mem_cons_of_mem _ hc))]

theorem dropWhile_stop (p : Char → Bool) (A rest : List Char) (x : Char)
    (hA : ∀ c ∈ A, p c = true) (hx : p x = false) :
    (A ++ x :: rest).dropWhile p = x :: rest := by
  induction A with
  | nil => simp [List.dropWhile, hx]
  | cons a A ih =>
    have ha : p a = true := hA a (List.mem_cons_self _ _)
    simp only [List.cons_append, List.dropWhile_cons, ha, if_true]
    exact ih (fun c hc => hA c (List.mem_cons_of_mem _ hc))

theorem takeWhile_all (p : Char → Bool) (A : List Char) (hA : ∀ c ∈ A, p c = true) :
    A.takeWhile p = A := by
  induction A with
  | nil => rfl
  | cons a A ih =>
    have ha : p a = true := hA a (List.mem_cons_self _ _)
    simp only [List.takeWhile_cons, ha, if_true]
    rw [ih (fun c hc => hA c (List.mem_cons_of_mem _ hc))]

theorem dropWhile_all (p : Char → Bool) (A : List Char) (hA : ∀ c ∈ A, p c = true) :
    A.dropWhile p = [] := by
  induction A with
  | nil => rfl
  | cons a A ih =>
    have ha : p a = true := hA a (List.mem_cons_self _ _)
    simp only [List.dropWhile_cons, ha, if_true]
    exact ih (fun c hc => hA c (List.mem_cons_of_mem _ hc))

/-- A token followed by `&`: `strtok` returns it and resumes after the `&`. -/
theorem strtok_token (A rest : List Char) (hA : A ≠ []) (hamp : ∀ c ∈ A, c ≠ '&') :
    strtok (A ++ '&' :: rest) = some (A, rest) := by
  cases A with
  | nil => exact absurd rfl hA
  | cons a A =>
    have ha : a ≠ '&' := hamp a (List.mem_cons_self _ _)
    have hp : ∀ c ∈ a :: A, (fun c : Char => c != '&') c = true := by
      intro c hc
      simpa using hamp c hc
    have h1 := takeWhile_stop (fun c : Char => c != '&') (a :: A) rest '&' hp (by simp)
    have h2 := dropWhile_stop (fun c : Char => c != '&') (a :: A) rest '&' hp (by simp)
    have h0 : (a :: A ++ '&' :: rest).dropWhile (fun c : Char => c == '&')
        = a :: (A ++ '&' :: rest) := by
      simp [List.dropWhile_cons, ha]
    unfold strtok
    rw [h0]
    simp only []
    rw [← List.cons_append, h1, h2]
    rfl

/-- The last token: `strtok` returns it and nothing is left to scan. -/
theorem strtok_last (A : List Char) (hA : A ≠ []) (hamp : ∀ c ∈ A, c ≠ '&') :
    strtok A = some (A, []) := by
  cases A with
  | nil => exact absurd rfl hA
  | cons a A =>
    have ha : a ≠ '&' := hamp a (List.mem_cons_self _ _)
    have hp : ∀ c ∈ a :: A, (fun c : Char => c != '&') c = true := by
      intro c hc
      simpa using hamp c hc
    have h1 := takeWhile_all (fun c : Char => c != '&') (a :: A) hp
    have h2 := dropWhile_all (fun c : Char => c != '&') (a :: A) hp
    have h0 : (a :: A).dropWhile (fun c : Char => c == '&') = a :: A := by
      simp [List.dropWhile_cons, ha]
    unfold strtok
    rw [h0]
    simp only []
    rw [h1, h2]
    rfl

theorem strtok_nil : strtok [] = none := rfl

/-- What `strtok` leaves to scan is shorter than what it was given. -/
theorem strtok_shorter (s tok rest : List Char) (h : strtok s = some (tok, rest)) :
    rest.length < s.length := by
  unfold strtok at h
  have hle := (List.dropWhile_sublist (l := s) (fun c : Char => c == '&')).length_le
  cases hd : s.dropWhile (fun c => c == '&') with
  | nil => rw [hd] at h; exact absurd h (by simp)
  | cons c cs =>
    rw [hd] at h hle
    simp only [Option.some.injEq, Prod.mk.injEq] at h
    have hle2 := (List.dropWhile_sublist (l := c :: cs) (fun c : Char => c != '&')).length_le
    rw [← h.2, List.length_drop]
    simp only [List.length_cons] at hle hle2 ⊢
    omega

theorem cookie_loop_none (config : choose_config) (fuel : Nat) (l : locals) :
    cookie_loop config fuel none l = some l := by
  cases fuel <;> rfl

theorem cookie_loop_some (config : choose_config) (fuel : Nat) (tok rest : List Char)
    (l : locals) :
    cookie_loop config (fuel + 1) (some (tok, rest)) l
      = (cookie_token config l tok).bind (cookie_loop config fuel (strtok rest)) := rfl

/-- The first turn of the loop: the treasure token. -/
theorem cookie_token_zero (config : choose_config) (l : locals) (tok tr : List Char)
    (hi : l.i = 0) (htr : config.treasure = some tr) :
    cookie_token config l tok
      = some { l with
          i := 1
          config_treasure := to_int (to_int (strtol tr) + to_int (strtol tok))
          cookie := fmt_i (to_int (to_int (strtol tr) + to_int (strtol tok)))
          overrun := l.overrun
            || sprintf_overruns (fmt_i (to_int (to_int (strtol tr) + to_int (strtol tok)))) } := by
  unfold cookie_token
  simp [hi, htr]

/-- The second turn of the loop: the health token. -/
theorem cookie_token_one (config : choose_config) (l : locals) (tok dm : List Char)
    (hi : l.i = 1) (hdm : config.damage = some dm) :
    cookie_token config l tok
      = some { l with
          i := 2
          config_damage := to_int (to_int (strtol tok) - to_int (strtol dm))
          cookie := l.cookie ++ [ '&' ]
            ++ fmt_i (to_int (to_int (strtol tok) - to_int (strtol dm)))
          overrun := l.overrun
            || sprintf_overruns (fmt_i (to_int (to_int (strtol tok) - to_int (strtol dm)))) } := by
  unfold cookie_token
  simp [hi, hdm]

/-- A later turn of the loop only counts the token. -/
theorem cookie_token_later (config : choose_config) (l : locals) (tok : List Char)
    (h0 : l.i ≠ 0) (h1 : l.i ≠ 1) :
    cookie_token config l tok = some { l with i := l.i + 1 } := by
  unfold cookie_token
  simp [h0, h1]

/-- A turn of the loop succeeds when treasure and damage are configured, and leaves `show`. -/
theorem cookie_token_total (config : choose_config) (l : locals) (tok : List Char)
    (htr : config.treasure ≠ none) (hdm : config.damage ≠ none) :
    ∃ l2, cookie_token config l tok = some l2 ∧ l2.show_flag = l.show_flag := by
  obtain ⟨tr, htr⟩ := Option.ne_none_iff_exists'.mp htr
  obtain ⟨dm, hdm⟩ := Option.ne_none_iff_exists'.mp hdm
  by_cases h0 : l.i = 0
  · exact ⟨_, cookie_token_zero config l tok tr h0 htr, rfl⟩
  · by_cases h1 : l.i = 1
    · exact ⟨_, cookie_token_one config l tok dm h1 hdm, rfl⟩
    · exact ⟨_, cookie_token_later config l tok h0 h1, rfl⟩

/-- The loop ends: with more fuel than text left to scan it returns, and leaves `show`. -/
theorem cookie_loop_total (config : choose_config) (htr : config.treasure ≠ none)
    (hdm : config.damage ≠ none) (fuel : Nat) (pending : Option (List Char × List Char))
    (l : locals) (hf : ∀ tok rest, pending = some (tok, rest) → rest.length < fuel) :
    ∃ l2, cookie_loop config fuel pending l = some l2 ∧ l2.show_flag = l.show_flag := by
  induction fuel generalizing pending l with
  | zero =>
    cases pending with
    | none => exact ⟨l, rfl, rfl⟩
    | some tr => exact absurd (hf tr.1 tr.2 rfl) (by omega)
  | succ fuel ih =>
    cases pending with
    | none => exact ⟨l, rfl, rfl⟩
    | some tr =>
      obtain ⟨tok, rest⟩ := tr
      obtain ⟨l1, hl1, hs1⟩ := cookie_token_total config l tok htr hdm
      have hrest := hf tok rest rfl
      obtain ⟨l2, hl2, hs2⟩ := ih (strtok rest) l1 (fun tok2 rest2 h2 => by
        have := strtok_shorter rest tok2 rest2 h2
        omega)
      refine ⟨l2, ?_, by rw [hs2, hs1]⟩
      rw [cookie_loop_some, hl1]
      exact hl2

/-! ## Lemmas on the handler -/

/-- The locals after a Cookie header of two segments `A&B`. -/
theorem read_cookie_two (lit_addr : Nat) (g : stack_garbage) (r : request_rec)
    (config : choose_config) (A B tr dm : List Char)
    (hc : r.cookie_data = some (A ++ '&' :: B))
    (hA : A ≠ []) (hAamp : ∀ c ∈ A, c ≠ '&') (hB : B ≠ []) (hBamp : ∀ c ∈ B, c ≠ '&')
    (htr : config.treasure = some tr) (hdm : config.damage = some dm) :
    read_cookie lit_addr g r config
      = some
          { i := 2
            show_flag := 1
            config_treasure := to_int (to_int (strtol tr) + to_int (strtol A))
            config_damage := to_int (to_int (strtol B) - to_int (strtol dm))
            cookie := fmt_i (to_int (to_int (strtol tr) + to_int (strtol A))) ++ [ '&' ]
              ++ fmt_i (to_int (to_int (strtol B) - to_int (strtol dm)))
            overrun :=
              sprintf_overruns (fmt_i (to_int (to_int (strtol tr) + to_int (strtol A))))
                || sprintf_overruns (fmt_i (to_int (to_int (strtol B) - to_int (strtol dm)))) } := by
  obtain ⟨n, hn⟩ : ∃ n, (A ++ '&' :: B).length + 1 = n + 2 :=
    ⟨(A ++ '&' :: B).length - 1, by simp; omega⟩
  unfold read_cookie
  rw [hc]
  simp only []
  rw [hn, strtok_token A B hA hAamp, cookie_loop_some,
    cookie_token_zero config _ A tr rfl htr, Option.some_bind, strtok_last B hB hBamp,
    cookie_loop_some, cookie_token_one config _ B dm rfl hdm, Option.some_bind, strtok_nil,
    cookie_loop_none]
  simp

/-- With a resolved descriptor every `replace_str` call of the templated layout returns. -/
theorem templated_layout_total (config : choose_config) (template : List Char)
    (hres : resolved config) : ∃ body, templated_layout config template = some body := by
  obtain ⟨h1, h2, h3, h4⟩ := hres
  obtain ⟨title, htitle⟩ := Option.ne_none_iff_exists'.mp h1
  obtain ⟨descr, hdescr⟩ := Option.ne_none_iff_exists'.mp h2
  obtain ⟨tr, htr⟩ := Option.ne_none_iff_exists'.mp h3
  obtain ⟨dm, hdm⟩ := Option.ne_none_iff_exists'.mp h4
  unfold templated_layout
  rw [htitle, hdescr, htr, hdm]
  simp only [replace_str_eq _ _ _ (by decide : "\x7b\x7btitle\x7d\x7d".toList ≠ []),
    replace_str_eq _ _ _ (by decide : "\x7b\x7bhealth\x7d\x7d".toList ≠ []),
    replace_str_eq _ _ _ (by decide : "\x7b\x7btreasure\x7d\x7d".toList ≠ []),
    replace_str_eq _ _ _ (by decide : "\x7b\x7bchoices\x7d\x7d".toList ≠ []),
    replace_str_eq _ _ _ (by decide : "\x7b\x7bstageTitle\x7d\x7d".toList ≠ []),
    replace_str_eq _ _ _ (by decide : "\x7b\x7bdescription\x7d\x7d".toList ≠ []),
    Option.some_bind]
  exact ⟨_, rfl⟩

/-- The response when the cookie was read and `show` is 1. -/
theorem choose_handler_visible (lit_addr : Nat) (g : stack_garbage) (r : request_rec)
    (config : choose_config) (l : locals)
    (hh : r.handler = some "choose-handler".toList) (hres : resolved config)
    (hl : read_cookie lit_addr g r config = some l) (hs : l.show_flag = 1) :
    ∃ resp, choose_handler lit_addr g r config = some resp
      ∧ resp.status = OK ∧ resp.set_cookie = some l.cookie ∧ resp.overrun = l.overrun
      ∧ (config.theme_template = none → resp.body = default_layout l config)
      ∧ (∀ t, config.theme_template = some t → templated_layout config t = some resp.body) := by
  unfold choose_handler
  rw [if_neg (not_not.mpr hh), hl, Option.some_bind]
  cases ht : config.theme_template with
  | none =>
    have hr : render l config = some (default_layout l config) := by
      unfold render
      rw [ht]
      simp [hs]
    rw [hr]
    exact ⟨_, rfl, rfl, rfl, rfl, fun _ => rfl, fun t h => by simp at h⟩
  | some template =>
    obtain ⟨body, hbody⟩ := templated_layout_total config template hres
    have hr : render l config = some body := by
      unfold render
      rw [ht]
      simp [hs, hbody]
    rw [hr]
    refine ⟨_, rfl, rfl, rfl, rfl, fun h => by simp at h, fun t h => ?_⟩
    have : template = t := by simpa using h
    rw [← this]
    exact hbody

/-- The response when `show` is 0: the start-over message, whatever the descriptor. -/
theorem choose_handler_blocked (lit_addr : Nat) (g : stack_garbage) (r : request_rec)
    (config : choose_config) (l : locals)
    (hh : r.handler = some "choose-handler".toList)
    (hl : read_cookie lit_addr g r config = some l) (hs : l.show_flag = 0) :
    choose_handler lit_addr g r config
      = some { status := OK, set_cookie := some l.cookie
               content_type := some "text/html".toList, body := start_over
               overrun := l.overrun } := by
  have hr : render l config = some start_over := by
    unfold render
    cases config.theme_template <;> simp [hs]
  unfold choose_handler
  rw [if_neg (not_not.mpr hh), hl, Option.some_bind, hr]
  rfl

/-- The default layout starts with the banner's `<pre>`; the start-over message does not. -/
theorem default_layout_ne_start_over (l : locals) (config : choose_config) :
    default_layout l config ≠ start_over := by
  obtain ⟨X, hX⟩ : ∃ X, default_layout l config = banner ++ X := by
    unfold default_layout
    simp only [List.append_assoc]
    exact ⟨_, rfl⟩
  obtain ⟨Y, hY⟩ : ∃ Y, banner = '<' :: 'p' :: Y := ⟨_, rfl⟩
  obtain ⟨Z, hZ⟩ : ∃ Z, start_over = '<' :: 'h' :: Z := ⟨_, rfl⟩
  rw [hX, hY, hZ]
  intro h
  simp at h

/-! ## Shared lemmas for the claims -/

theorem encode_eq (t h : Int) : encode t h = fmt_i t ++ '&' :: fmt_i h := by
  simp [encode]

/-- An `int` written by `%i` is read back by `strtol` and the conversion to `int`. -/
theorem field_of_fmt_i (v : Int) (h : fits_int v) : to_int (strtol (fmt_i v)) = v := by
  obtain ⟨h1, h2⟩ := h
  rw [strtol_fmt_i v (by norm_num [LONG_MIN]; omega) (by norm_num [LONG_MAX]; omega)]
  exact to_int_of_range v h1 h2

theorem fits_int_of_fits_buffer (v : Int) (h : fits_buffer v) : fits_int v := by
  obtain ⟨h1, h2⟩ := h
  constructor <;> omega

/-- The response to a Cookie header of two segments whose updated values fit the buffer. -/
theorem handler_two_segments (lit_addr : Nat) (g : stack_garbage) (r : request_rec)
    (config : choose_config) (A B tr dm : List Char) (T H : Int)
    (hh : r.handler = some "choose-handler".toList) (hres : resolved config)
    (hc : r.cookie_data = some (A ++ '&' :: B))
    (hA : A ≠ []) (hAamp : ∀ c ∈ A, c ≠ '&') (hB : B ≠ []) (hBamp : ∀ c ∈ B, c ≠ '&')
    (htr : config.treasure = some tr) (hdm : config.damage = some dm)
    (hT : to_int (to_int (strtol tr) + to_int (strtol A)) = T)
    (hH : to_int (to_int (strtol B) - to_int (strtol dm)) = H)
    (hTf : fits_buffer T) (hHf : fits_buffer H) :
    ∃ l resp, read_cookie lit_addr g r config = some l ∧ l.show_flag = 1
      ∧ l.config_treasure = T ∧ l.config_damage = H
      ∧ choose_handler lit_addr g r config = some resp ∧ resp.status = OK
      ∧ resp.set_cookie = some (encode T H) ∧ resp.overrun = false := by
  have hl := read_cookie_two lit_addr g r config A B tr dm hc hA hAamp hB hBamp htr hdm
  rw [hT, hH] at hl
  obtain ⟨resp, h1, h2, h3, h4, -, -⟩ :=
    choose_handler_visible lit_addr g r config _ hh hres hl rfl
  refine ⟨_, resp, hl, rfl, rfl, rfl, h1, h2, ?_, ?_⟩
  · rw [h3]
    rfl
  · rw [h4]
    simp [sprintf_overruns_of_fits T hTf, sprintf_overruns_of_fits H hHf]

/-! ## C1 -/

/-- C1 (amended): for a Cookie header `t&h` and a descriptor with reward `rw` and damage `dm`,
all four of type `int` and written in base 10 as by `%i`, such that `t + rw` and `h - dm` fit the
handler's conversion buffer (at most 9 characters), the handler answers and its Set-Cookie value
is the encoding of treasure `t + rw` and health `h - dm`, unclamped, with no write past the
buffer. -/
theorem set_cookie_applies_reward_and_damage (lit_addr : Nat) (g : stack_garbage)
    (r : request_rec) (config : choose_config) (t h rw dm : Int)
    (hh : r.handler = some "choose-handler".toList) (hres : resolved config)
    (hc : r.cookie_data = some (encode t h))
    (htr : config.treasure = some (fmt_i rw)) (hdm : config.damage = some (fmt_i dm))
    (ht : fits_int t) (hh2 : fits_int h) (hrw : fits_int rw) (hdm2 : fits_int dm)
    (hT : fits_buffer (t + rw)) (hH : fits_buffer (h - dm)) :
    ∃ resp, choose_handler lit_addr g r config = some resp
      ∧ resp.set_cookie = some (encode (t + rw) (h - dm)) ∧ resp.overrun = false := by
  rw [encode_eq] at hc
  have hTi := fits_int_of_fits_buffer _ hT
  have hHi := fits_int_of_fits_buffer _ hH
  obtain ⟨l, resp, -, -, -, -, h1, -, h2, h3⟩ :=
    handler_two_segments lit_addr g r config (fmt_i t) (fmt_i h) (fmt_i rw) (fmt_i dm)
      (t + rw) (h - dm) hh hres hc (fmt_i_ne_nil t) (fmt_i_no_amp t) (fmt_i_ne_nil h)
      (fmt_i_no_amp h) htr hdm
      (by rw [field_of_fmt_i rw hrw, field_of_fmt_i t ht, add_comm]
          exact to_int_of_range _ hTi.1 hTi.2)
      (by rw [field_of_fmt_i h hh2, field_of_fmt_i dm hdm2]
          exact to_int_of_range _ hHi.1 hHi.2)
      hT hH
  exact ⟨resp, h1, h2, h3⟩

/-- The scenario of C1: cookie `50&800`, reward `10`, damage `20` give `60&780`. -/
theorem set_cookie_applies_reward_and_damage_witness :
    (get "/var/www/html/cyp/stage2".toList (some "50&800".toList)).cookie_data
        = some (encode 50 800)
      ∧ (stage2 "10".toList "20".toList none).treasure = some (fmt_i 10)
      ∧ (stage2 "10".toList "20".toList none).damage = some (fmt_i 20)
      ∧ encode (50 + 10) (800 - 20) = "60&780".toList
      ∧ ∃ resp, choose_handler literal_addr stale
            (get "/var/www/html/cyp/stage2".toList (some "50&800".toList))
            (stage2 "10".toList "20".toList none) = some resp
          ∧ resp.set_cookie = some (encode (50 + 10) (800 - 20)) ∧ resp.overrun = false :=
  ⟨rfl, rfl, rfl, rfl,
    set_cookie_applies_reward_and_damage literal_addr stale
      (get "/var/www/html/cyp/stage2".toList (some "50&800".toList))
      (stage2 "10".toList "20".toList none) 50 800 10 20 rfl (by decide) rfl rfl rfl
      (by decide) (by decide) (by decide) (by decide) (by decide) (by decide)⟩

set_option maxRecDepth 8000 in
/-- C1 as stated fails for a treasure that is not an `int`: the cookie `4294967296&0` with
reward `0` and damage `0` gives the Set-Cookie value `0&0`, not the encoding of
`4294967296 + 0` and `0 - 0`. -/
theorem set_cookie_wraps_large_treasure :
    (get "/var/www/html/cyp/stage2".toList (some "4294967296&0".toList)).cookie_data
        = some (encode 4294967296 0)
      ∧ (stage2 "0".toList "0".toList none).treasure = some (fmt_i 0)
      ∧ (stage2 "0".toList "0".toList none).damage = some (fmt_i 0)
      ∧ (choose_handler literal_addr stale
            (get "/var/www/html/cyp/stage2".toList (some "4294967296&0".toList))
            (stage2 "0".toList "0".toList none)).map response.set_cookie
          = some (some "0&0".toList)
      ∧ encode (4294967296 + 0) (0 - 0) = "4294967296&0".toList
      ∧ "0&0".toList ≠ "4294967296&0".toList :=
  ⟨rfl, rfl, rfl, by rfl, by rfl, by decide⟩

/-! ## C2 -/

/-- C2 (amended): round trip for the states whose fields fit the handler's conversion buffer.
For all `t` and `h` between -99999999 and 999999999, a Cookie header equal to the text `t&h`
written by `%i` is read back as exactly `(t, h)` with `show` left at 1 (prior state present),
so with reward `0` and damage `0` the handler's Set-Cookie value equals the incoming header. -/
theorem cookie_round_trip (lit_addr : Nat) (g : stack_garbage) (r : request_rec)
    (config : choose_config) (t h : Int)
    (hh : r.handler = some "choose-handler".toList) (hres : resolved config)
    (hc : r.cookie_data = some (encode t h))
    (htr : config.treasure = some "0".toList) (hdm : config.damage = some "0".toList)
    (ht : fits_buffer t) (hh2 : fits_buffer h) :
    ∃ l resp, read_cookie lit_addr g r config = some l
      ∧ l.config_treasure = t ∧ l.config_damage = h ∧ l.show_flag = 1
      ∧ choose_handler lit_addr g r config = some resp
      ∧ resp.set_cookie = r.cookie_data ∧ resp.overrun = false := by
  have hti := fits_int_of_fits_buffer _ ht
  have hhi := fits_int_of_fits_buffer _ hh2
  have hz : to_int (strtol "0".toList) = 0 := by rfl
  have hc2 := hc
  rw [encode_eq] at hc2
  obtain ⟨l, resp, h1, h2, h3, h4, h5, -, h7, h8⟩ :=
    handler_two_segments lit_addr g r config (fmt_i t) (fmt_i h) "0".toList "0".toList t h
      hh hres hc2 (fmt_i_ne_nil t) (fmt_i_no_amp t) (fmt_i_ne_nil h) (fmt_i_no_amp h) htr hdm
      (by rw [hz, field_of_fmt_i t hti, zero_add]
          exact to_int_of_range _ hti.1 hti.2)
      (by rw [hz, field_of_fmt_i h hhi, sub_zero]
          exact to_int_of_range _ hhi.1 hhi.2)
      ht hh2
  exact ⟨l, resp, h1, h3, h4, h2, h5, by rw [h7, hc], h8⟩

/-- The round trip of the state `(-7, 1000)`: header and Set-Cookie value are `-7&1000`. -/
theorem cookie_round_trip_witness :
    (get "/var/www/html/cyp/stage2".toList (some "-7&1000".toList)).cookie_data
        = some (encode (-7) 1000)
      ∧ fits_buffer (-7) ∧ fits_buffer 1000
      ∧ ∃ l resp, read_cookie literal_addr stale
            (get "/var/www/html/cyp/stage2".toList (some "-7&1000".toList))
            (stage2 "0".toList "0".toList none) = some l
          ∧ l.config_treasure = -7 ∧ l.config_damage = 1000 ∧ l.show_flag = 1
          ∧ choose_handler literal_addr stale
              (get "/var/www/html/cyp/stage2".toList (some "-7&1000".toList))
              (stage2 "0".toList "0".toList none) = some resp
          ∧ resp.set_cookie
              = (get "/var/www/html/cyp/stage2".toList (some "-7&1000".toList)).cookie_data
          ∧ resp.overrun = false :=
  ⟨rfl, by decide, by decide,
    cookie_round_trip literal_addr stale
      (get "/var/www/html/cyp/stage2".toList (some "-7&1000".toList))
      (stage2 "0".toList "0".toList none) (-7) 1000 rfl (by decide) rfl rfl rfl
      (by decide) (by decide)⟩

set_option maxRecDepth 8000 in
/-- C2 as stated fails for a health that is not an `int`: the header `3&4294967301`, the
encoding of the state `(3, 4294967301)`, is read back as `(3, 5)`, and with reward `0` and
damage `0` the Set-Cookie value is `3&5`, not the incoming header. -/
theorem round_trip_fails_for_large_health :
    (get "/var/www/html/cyp/stage2".toList (some "3&4294967301".toList)).cookie_data
        = some (encode 3 4294967301)
      ∧ (read_cookie literal_addr stale
            (get "/var/www/html/cyp/stage2".toList (some "3&4294967301".toList))
            (stage2 "0".toList "0".toList none)).map
              (fun l => (l.config_treasure, l.config_damage)) = some (3, 5)
      ∧ (choose_handler literal_addr stale
            (get "/var/www/html/cyp/stage2".toList (some "3&4294967301".toList))
            (stage2 "0".toList "0".toList none)).map response.set_cookie
          = some (some "3&5".toList)
      ∧ some "3&5".toList
          ≠ (get "/var/www/html/cyp/stage2".toList (some "3&4294967301".toList)).cookie_data :=
  ⟨by rfl, by rfl, by rfl, by decide⟩

/-! ## C4 -/

/-- C4: for every request with no Cookie header whose file name is not the entry route's
(a pointer equal to the literal's points at the literal's text) and every descriptor, with or
without template, the handler's Set-Cookie value is exactly `0&1000`, the encoding of the
default state, and the body is exactly the fixed start-over message, in which nothing of the
descriptor appears. -/
theorem no_cookie_off_entry_is_blocked (lit_addr : Nat) (g : stack_garbage) (r : request_rec)
    (config : choose_config)
    (hh : r.handler = some "choose-handler".toList)
    (hc : r.cookie_data = none)
    (hlit : r.filename.addr = lit_addr → r.filename.text = entry_filename)
    (hroute : r.filename.text ≠ entry_filename) :
    choose_handler lit_addr g r config
        = some { status := OK, set_cookie := some "0&1000".toList
                 content_type := some "text/html".toList, body := start_over
                 overrun := false }
      ∧ "0&1000".toList = encode 0 1000
      ∧ start_over = "<h2>You must start at the beginning.<br />".toList
          ++ "<a href=\x27/cyp\x27>Start Here</a></h2><br /><br /><br >".toList := by
  have haddr : r.filename.addr ≠ lit_addr := fun h => hroute (hlit h)
  have hl : read_cookie lit_addr g r config
      = some { i := 0, show_flag := 0, config_treasure := g.config_treasure
               config_damage := g.config_damage, cookie := "0&1000".toList
               overrun := false } := by
    unfold read_cookie
    rw [hc]
    simp [haddr]
  exact ⟨choose_handler_blocked lit_addr g r config _ hh hl rfl, by rfl, by rfl⟩

/-- A request for `/cyp/stage2` without cookie, on a level with a template. -/
theorem no_cookie_off_entry_is_blocked_witness :
    (get "/var/www/html/cyp/stage2".toList none).cookie_data = none
      ∧ (get "/var/www/html/cyp/stage2".toList none).filename.text ≠ entry_filename
      ∧ (choose_handler literal_addr stale (get "/var/www/html/cyp/stage2".toList none)
            (stage2 "10".toList "20".toList (some "\x7b\x7bstageTitle\x7d\x7d".toList))
          = some { status := OK, set_cookie := some "0&1000".toList
                   content_type := some "text/html".toList, body := start_over
                   overrun := false }
        ∧ "0&1000".toList = encode 0 1000
        ∧ start_over = "<h2>You must start at the beginning.<br />".toList
            ++ "<a href=\x27/cyp\x27>Start Here</a></h2><br /><br /><br >".toList) :=
  ⟨rfl, by decide,
    no_cookie_off_entry_is_blocked literal_addr stale
      (get "/var/www/html/cyp/stage2".toList none)
      (stage2 "10".toList "20".toList (some "\x7b\x7bstageTitle\x7d\x7d".toList))
      rfl rfl (fun h => absurd h (by decide)) (by decide)⟩

/-! ## C5 -/

/-- C5 (code bug): a request for the entry route, file name `/var/www/html/cyp`, without
Cookie header is blocked. The handler compares the pointer `r->filename` with the address of
its string literal, not the texts, and the server's file name never lives at that address: the
handler sets `show = 0` and the body is the start-over message, not level content. -/
theorem entry_route_without_cookie_is_blocked :
    (get "/var/www/html/cyp".toList none).filename.text = entry_filename
      ∧ (get "/var/www/html/cyp".toList none).cookie_data = none
      ∧ (read_cookie literal_addr stale (get "/var/www/html/cyp".toList none)
            (stage2 "10".toList "20".toList none)).map locals.show_flag = some 0
      ∧ choose_handler literal_addr stale (get "/var/www/html/cyp".toList none)
            (stage2 "10".toList "20".toList none)
          = some { status := OK, set_cookie := some "0&1000".toList
                   content_type := some "text/html".toList, body := start_over
                   overrun := false } :=
  ⟨by rfl, by rfl, by rfl, by rfl⟩

/-! ## C6 -/

/-- C6 (code bug): with a Cookie header of a single segment, `5`, and reward and damage `0`,
the Set-Cookie value is `5`, which is not two integers joined by `&`; with a header without
any segment (the empty header) the Set-Cookie value is whatever the stack held in `cookie`. -/
theorem single_segment_cookie_is_not_a_pair :
    (choose_handler literal_addr stale
          (get "/var/www/html/cyp/stage2".toList (some "5".toList))
          (stage2 "0".toList "0".toList none)).map response.set_cookie
        = some (some "5".toList)
      ∧ (∀ a b : Int, "5".toList ≠ encode a b)
      ∧ (choose_handler literal_addr stale
          (get "/var/www/html/cyp/stage2".toList (some "".toList))
          (stage2 "0".toList "0".toList none)).map response.set_cookie
        = some (some stale.cookie) := by
  refine ⟨by rfl, ?_, by rfl⟩
  intro a b h
  have hmem : '&' ∈ encode a b := by simp [encode]
  rw [← h] at hmem
  revert hmem
  decide

/-! ## C7 -/

/-- A text without numeric prefix is read as 0 by `strtol`. -/
theorem strtol_unparsable (s : List Char) (h : has_numeric_prefix s = false) :
    strtol s = 0 := by
  unfold has_numeric_prefix at h
  unfold strtol
  cases hs : s.dropWhile isspace with
  | nil => rfl
  | cons c cs =>
    rw [hs] at h
    simp only [] at h
    by_cases hsign : c = '-' ∨ c = '+'
    · rw [if_pos hsign] at h
      have hrest : strtol_digits (strtol_base cs).1 0 (strtol_base cs).2 = 0 := by
        cases cs with
        | nil => rfl
        | cons d t =>
          have hd : isdigit d = false := h
          have hd0 : d ≠ '0' := fun e => by rw [e] at hd; revert hd; decide
          rw [strtol_base_nonzero d t hd0]
          exact strtol_digits_stop 0 d t hd
      rcases hsign with hc | hc
      · subst hc
        simp only [strtol_sign, if_true]
        rw [hrest]
        rfl
      · subst hc
        have : strtol_sign ('+' :: cs) = (false, cs) := by simp [strtol_sign]
        rw [this]
        simp only []
        rw [hrest]
        rfl
    · rw [if_neg hsign] at h
      have h1 : c ≠ '-' := fun e => hsign (Or.inl e)
      have h2 : c ≠ '+' := fun e => hsign (Or.inr e)
      have hc0 : c ≠ '0' := fun e => by rw [e] at h; revert h; decide
      have : strtol_sign (c :: cs) = (false, c :: cs) := by simp [strtol_sign, h1, h2]
      rw [this]
      simp only []
      rw [strtol_base_nonzero c cs hc0]
      simp only []
      rw [strtol_digits_stop 0 c cs h]
      rfl

/-- The `int` the handler reads from an admissible field is the value the field stands for. -/
theorem field_value_read (f : int_field) (h : f.admissible) :
    to_int (strtol f.text) = f.value := by
  cases f with
  | number v => exact field_of_fmt_i v h
  | unparsable s =>
    have hs : has_numeric_prefix s = false := h
    show to_int (strtol s) = 0
    rw [strtol_unparsable s hs]
    rfl

/-- C7 (amended): unparsable integer text counts as 0 and never blocks the request. For every
Cookie header of two non-empty segments and every descriptor, where each of the two segments,
the reward and the damage is either a value of type `int` written in base 10 or a text without
numeric prefix, counted as 0, and where treasure plus reward and health minus damage lie between
-99999999 and 999999999, the handler answers with `show` still 1 and the Set-Cookie value
encodes treasure plus reward and health minus damage. So a reward (damage) without numeric
prefix leaves the treasure `t` (the health `h`), and a treasure segment without numeric prefix
gives the reward as outgoing treasure. -/
theorem unparsable_text_counts_as_zero (lit_addr : Nat) (g : stack_garbage) (r : request_rec)
    (config : choose_config) (treasure health reward damage : int_field)
    (hh : r.handler = some "choose-handler".toList) (hres : resolved config)
    (hc : r.cookie_data = some (treasure.text ++ '&' :: health.text))
    (ht : treasure.text ≠ []) (htamp : ∀ c ∈ treasure.text, c ≠ '&')
    (hhl : health.text ≠ []) (hhamp : ∀ c ∈ health.text, c ≠ '&')
    (htr : config.treasure = some reward.text) (hdm : config.damage = some damage.text)
    (h1 : treasure.admissible) (h2 : health.admissible) (h3 : reward.admissible)
    (h4 : damage.admissible)
    (hT : fits_buffer (treasure.value + reward.value))
    (hH : fits_buffer (health.value - damage.value)) :
    ∃ l resp, read_cookie lit_addr g r config = some l ∧ l.show_flag = 1
      ∧ choose_handler lit_addr g r config = some resp ∧ resp.status = OK
      ∧ resp.set_cookie
          = some (encode (treasure.value + reward.value) (health.value - damage.value))
      ∧ resp.overrun = false := by
  have hTi := fits_int_of_fits_buffer _ hT
  have hHi := fits_int_of_fits_buffer _ hH
  obtain ⟨l, resp, a1, a2, -, -, a5, a6, a7, a8⟩ :=
    handler_two_segments lit_addr g r config treasure.text health.text reward.text damage.text
      (treasure.value + reward.value) (health.value - damage.value) hh hres hc ht htamp hhl
      hhamp htr hdm
      (by rw [field_value_read reward h3, field_value_read treasure h1, add_comm]
          exact to_int_of_range _ hTi.1 hTi.2)
      (by rw [field_value_read health h2, field_value_read damage h4]
          exact to_int_of_range _ hHi.1 hHi.2)
      hT hH
  exact ⟨l, resp, a1, a2, a5, a6, a7, a8⟩

/-- The scenario of C7: cookie `abc&800`, reward `10`, damage ` x` give `10&800`. -/
theorem unparsable_text_counts_as_zero_witness :
    (get "/var/www/html/cyp/stage2".toList (some "abc&800".toList)).cookie_data
        = some ((int_field.unparsable "abc".toList).text ++ '&' :: (int_field.number 800).text)
      ∧ (stage2 "10".toList " x".toList none).treasure = some (int_field.number 10).text
      ∧ (stage2 "10".toList " x".toList none).damage
          = some (int_field.unparsable " x".toList).text
      ∧ (int_field.unparsable "abc".toList).admissible
      ∧ (int_field.unparsable " x".toList).admissible
      ∧ encode ((int_field.unparsable "abc".toList).value + (int_field.number 10).value)
            ((int_field.number 800).value - (int_field.unparsable " x".toList).value)
          = "10&800".toList
      ∧ ∃ l resp, read_cookie literal_addr stale
            (get "/var/www/html/cyp/stage2".toList (some "abc&800".toList))
            (stage2 "10".toList " x".toList none) = some l ∧ l.show_flag = 1
          ∧ choose_handler literal_addr stale
              (get "/var/www/html/cyp/stage2".toList (some "abc&800".toList))
              (stage2 "10".toList " x".toList none) = some resp ∧ resp.status = OK
          ∧ resp.set_cookie
              = some (encode
                  ((int_field.unparsable "abc".toList).value + (int_field.number 10).value)
                  ((int_field.number 800).value - (int_field.unparsable " x".toList).value))
          ∧ resp.overrun = false :=
  ⟨rfl, rfl, rfl, by decide, by decide, by rfl,
    unparsable_text_counts_as_zero literal_addr stale
      (get "/var/www/html/cyp/stage2".toList (some "abc&800".toList))
      (stage2 "10".toList " x".toList none)
      (int_field.unparsable "abc".toList) (int_field.number 800) (int_field.number 10)
      (int_field.unparsable " x".toList)
      rfl (by decide) rfl (by decide) (by decide) (by decide) (by decide) rfl rfl
      (by decide) (by decide) (by decide) (by decide) (by decide) (by decide)⟩

set_option maxRecDepth 8000 in
/-- C7 as stated fails for a treasure that is not an `int`: with the cookie `4294967299&800`
and the reward `abc`, without numeric prefix, the outgoing treasure is 3, not 4294967299. -/
theorem unparsable_reward_large_treasure :
    (get "/var/www/html/cyp/stage2".toList (some "4294967299&800".toList)).cookie_data
        = some (encode 4294967299 800)
      ∧ has_numeric_prefix "abc".toList = false
      ∧ (read_cookie literal_addr stale
            (get "/var/www/html/cyp/stage2".toList (some "4294967299&800".toList))
            (stage2 "abc".toList "20".toList none)).map locals.config_treasure = some 3
      ∧ (choose_handler literal_addr stale
            (get "/var/www/html/cyp/stage2".toList (some "4294967299&800".toList))
            (stage2 "abc".toList "20".toList none)).map response.set_cookie
          = some (some "3&780".toList)
      ∧ (3 : Int) ≠ 4294967299 :=
  ⟨by rfl, by rfl, by rfl, by rfl, by decide⟩

/-! ## C8: leading zeros -/

set_option maxRecDepth 8000 in
/-- C8 as stated fails for a leading zero, which makes `strtol` read the digits in base 8:
`010` is read as 8 and `0800` as 0, so the cookie `010&0800` with reward and damage `0` gives
`8&0`. It also fails for digits whose value is not an `int`: `4294967296` is read as 0. -/
theorem leading_zero_is_read_in_base_eight :
    to_int (strtol "010".toList) = 8 ∧ decimal_value "010".toList = 10
      ∧ to_int (strtol "0800".toList) = 0 ∧ decimal_value "0800".toList = 800
      ∧ (choose_handler literal_addr stale
            (get "/var/www/html/cyp/stage2".toList (some "010&0800".toList))
            (stage2 "0".toList "0".toList none)).map response.set_cookie
          = some (some "8&0".toList)
      ∧ to_int (strtol "4294967296".toList) = 0
      ∧ decimal_value "4294967296".toList = 4294967296 :=
  ⟨by rfl, by rfl, by rfl, by rfl, by rfl, by rfl, by rfl⟩

/-! ## Lemmas on the pieces of a text -/

theorem strstr_split (old s : List Char) (l : Nat) (h : strstr s old = some l) :
    s = s.take l ++ old ++ s.drop (l + old.length) := by
  induction s generalizing l with
  | nil =>
    unfold strstr at h
    cases old with
    | nil =>
      have : l = 0 := by simpa using h.symm
      subst this
      rfl
    | cons a t => simp [List.isPrefixOf] at h
  | cons c cs ih =>
    cases hp : old.isPrefixOf (c :: cs) with
    | true =>
      rw [strstr_cons_pos c cs old hp] at h
      have hl : l = 0 := by simpa using h.symm
      subst hl
      obtain ⟨t, ht⟩ := List.isPrefixOf_iff_prefix.mp hp
      rw [← ht]
      simp
    | false =>
      rw [strstr_cons_neg c cs old hp] at h
      cases hs : strstr cs old with
      | none => rw [hs] at h; exact absurd h (by simp)
      | some l2 =>
        rw [hs] at h
        have hl : l = l2 + 1 := by simpa using h.symm
        subst hl
        have := ih l2 hs
        have e : l2 + 1 + old.length = (l2 + old.length) + 1 := by omega
        rw [e]
        simp only [List.take_succ_cons, List.drop_succ_cons, List.cons_append]
        exact congrArg (List.cons c) this

set_option maxRecDepth 8000 in
/-- C10 (code bug): in the templated layout `{{health}}` is replaced by the descriptor's damage
string and `{{treasure}}` by its reward string, not by the computed health and treasure. For
the template `<h1>{{title}}</h1>{{health}} {{treasure}}`, the cookie `50&800`, reward `10` and
damage `20` the computed values are treasure 60 and health 780 (the Set-Cookie value is
`60&780`), and the body is `<h1>Choose Your Path</h1>20 10`, not
`<h1>Choose Your Path</h1>780 60`. -/
theorem template_shows_configured_strings :
    choose_handler literal_addr stale
        (get "/var/www/html/cyp/stage2".toList (some "50&800".toList))
        (stage2 "10".toList "20".toList
          (some "<h1>\x7b\x7btitle\x7d\x7d</h1>\x7b\x7bhealth\x7d\x7d \x7b\x7btreasure\x7d\x7d".toList))
      = some { status := OK, set_cookie := some "60&780".toList
               content_type := some "text/html".toList
               body := "<h1>Choose Your Path</h1>20 10".toList
               overrun := false }
      ∧ "<h1>Choose Your Path</h1>20 10".toList ≠ "<h1>Choose Your Path</h1>780 60".toList :=
  ⟨by rfl, by decide⟩

/-! ## C11 -/

/-- The locals when there is no Cookie header. -/
theorem read_cookie_absent (lit_addr : Nat) (g : stack_garbage) (r : request_rec)
    (config : choose_config) (hc : r.cookie_data = none) :
    read_cookie lit_addr g r config
      = some { i := 0, show_flag := if r.filename.addr ≠ lit_addr then 0 else 1
               config_treasure := g.config_treasure, config_damage := g.config_damage
               cookie := "0&1000".toList, overrun := false } := by
  unfold read_cookie
  rw [hc]

/-- C11 (amended): on a visit with no Cookie header, to the entry route or to any other, for
every resolved descriptor, the handler answers and the outgoing Set-Cookie value is the
encoding of the default state, `0&1000`: the route's own reward and damage are not applied. -/
theorem no_cookie_gives_default_state (lit_addr : Nat) (g : stack_garbage) (r : request_rec)
    (config : choose_config)
    (hh : r.handler = some "choose-handler".toList) (hres : resolved config)
    (hc : r.cookie_data = none) :
    ∃ resp, choose_handler lit_addr g r config = some resp
      ∧ resp.set_cookie = some (encode 0 1000)
      ∧ resp.set_cookie = some "0&1000".toList ∧ resp.overrun = false := by
  have hl := read_cookie_absent lit_addr g r config hc
  by_cases haddr : r.filename.addr ≠ lit_addr
  · rw [if_pos haddr] at hl
    exact ⟨_, choose_handler_blocked lit_addr g r config _ hh hl rfl, by rfl, rfl, rfl⟩
  · rw [if_neg haddr] at hl
    obtain ⟨resp, h1, -, h3, h4, -, -⟩ :=
      choose_handler_visible lit_addr g r config _ hh hres hl rfl
    exact ⟨resp, h1, by rw [h3]; rfl, h3, h4⟩

/-- A first visit to the entry route, reward `10`, damage `20`. -/
theorem no_cookie_gives_default_state_witness :
    (get entry_filename none).handler = some "choose-handler".toList
      ∧ resolved (stage2 "10".toList "20".toList none)
      ∧ (get entry_filename none).cookie_data = none
      ∧ ∃ resp, choose_handler literal_addr stale (get entry_filename none)
            (stage2 "10".toList "20".toList none) = some resp
          ∧ resp.set_cookie = some (encode 0 1000)
          ∧ resp.set_cookie = some "0&1000".toList ∧ resp.overrun = false :=
  ⟨rfl, by decide, rfl,
    no_cookie_gives_default_state literal_addr stale (get entry_filename none)
      (stage2 "10".toList "20".toList none) rfl (by decide) rfl⟩

set_option maxRecDepth 8000 in
/-- C11 as stated fails: on a first visit to the entry route with reward `10` and damage `20`
the Set-Cookie value is `0&1000`, not `10&980`. This is so for the file name the server builds
and also for a request whose `r->filename` is the literal's own pointer, for which the
comparison of line 194 succeeds and `show` stays 1. -/
theorem first_visit_does_not_apply_reward :
    (get entry_filename none).filename.text = entry_filename
      ∧ (choose_handler literal_addr stale (get entry_filename none)
            (stage2 "10".toList "20".toList none)).map response.set_cookie
          = some (some "0&1000".toList)
      ∧ (read_cookie literal_addr stale (get_literal none)
            (stage2 "10".toList "20".toList none)).map locals.show_flag = some 1
      ∧ (choose_handler literal_addr stale (get_literal none)
            (stage2 "10".toList "20".toList none)).map response.set_cookie
          = some (some "0&1000".toList)
      ∧ encode (0 + 10) (1000 - 20) = "10&980".toList
      ∧ "0&1000".toList ≠ "10&980".toList :=
  ⟨by rfl, by rfl, by rfl, by rfl, by rfl, by decide⟩

/-! ## C12: empty segments -/

/-- From the third token on, the loop only counts: every local but `i` is left as it is. -/
theorem cookie_loop_later (config : choose_config) (fuel : Nat)
    (pending : Option (List Char × List Char)) (l : locals) (hi : 2 ≤ l.i)
    (hf : ∀ tok rest, pending = some (tok, rest) → rest.length < fuel) :
    ∃ k : Int, cookie_loop config fuel pending l = some { l with i := l.i + k } := by
  induction fuel generalizing pending l with
  | zero =>
    cases pending with
    | none => exact ⟨0, by simp [cookie_loop]⟩
    | some tr => exact absurd (hf tr.1 tr.2 rfl) (by omega)
  | succ fuel ih =>
    cases pending with
    | none => exact ⟨0, by simp [cookie_loop]⟩
    | some tr =>
      obtain ⟨tok, rest⟩ := tr
      have hrest := hf tok rest rfl
      obtain ⟨k, hk⟩ := ih (strtok rest) { l with i := l.i + 1 } (by simp; omega)
        (fun tok2 rest2 h2 => by
          have := strtok_shorter rest tok2 rest2 h2
          omega)
      refine ⟨1 + k, ?_⟩
      rw [cookie_loop_some, cookie_token_later config l tok (by omega) (by omega),
        Option.some_bind, hk]
      simp [add_assoc]

/-- The same, with the locals spelled out field by field. -/
theorem cookie_loop_later_fields (config : choose_config) (fuel : Nat)
    (pending : Option (List Char × List Char)) (i sf ct cd : Int) (ck : List Char) (ov : Bool)
    (hi : 2 ≤ i) (hf : ∀ tok rest, pending = some (tok, rest) → rest.length < fuel) :
    ∃ k : Int,
      cookie_loop config fuel pending
          { i := i, show_flag := sf, config_treasure := ct, config_damage := cd, cookie := ck
            overrun := ov }
        = some { i := i + k, show_flag := sf, config_treasure := ct, config_damage := cd
                 cookie := ck, overrun := ov } :=
  cookie_loop_later config fuel pending _ hi hf

/-- The locals after a Cookie header `A&B&rest`: those after `A&B`, but for the count `i`. -/
theorem read_cookie_more (lit_addr : Nat) (g : stack_garbage) (r : request_rec)
    (config : choose_config) (A B rest tr dm : List Char)
    (hc : r.cookie_data = some (A ++ '&' :: (B ++ '&' :: rest)))
    (hA : A ≠ []) (hAamp : ∀ c ∈ A, c ≠ '&') (hB : B ≠ []) (hBamp : ∀ c ∈ B, c ≠ '&')
    (htr : config.treasure = some tr) (hdm : config.damage = some dm) :
    ∃ k : Int, read_cookie lit_addr g r config
      = some
          { i := 2 + k
            show_flag := 1
            config_treasure := to_int (to_int (strtol tr) + to_int (strtol A))
            config_damage := to_int (to_int (strtol B) - to_int (strtol dm))
            cookie := fmt_i (to_int (to_int (strtol tr) + to_int (strtol A))) ++ [ '&' ]
              ++ fmt_i (to_int (to_int (strtol B) - to_int (strtol dm)))
            overrun :=
              sprintf_overruns (fmt_i (to_int (to_int (strtol tr) + to_int (strtol A))))
                || sprintf_overruns (fmt_i (to_int (to_int (strtol B) - to_int (strtol dm)))) } := by
  obtain ⟨n, hn⟩ : ∃ n, (A ++ '&' :: (B ++ '&' :: rest)).length + 1 = n + 2 :=
    ⟨(A ++ '&' :: (B ++ '&' :: rest)).length - 1, by simp; omega⟩
  have hlen : rest.length < n := by
    simp at hn
    omega
  unfold read_cookie
  rw [hc]
  simp only []
  rw [hn, strtok_token A _ hA hAamp, cookie_loop_some,
    cookie_token_zero config _ A tr rfl htr, Option.some_bind, strtok_token B rest hB hBamp,
    cookie_loop_some, cookie_token_one config _ B dm rfl hdm, Option.some_bind]
  exact cookie_loop_later_fields config n (strtok rest) 2 _ _ _ _ _ (by decide)
    (fun tok2 rest2 h2 => by
      have := strtok_shorter rest tok2 rest2 h2
      omega)

set_option maxRecDepth 8000 in
/-- C12 as stated fails for a header with an empty segment, which `strtok` skips: in `5&&7`
the text between the first and the second `&` is empty, and would be read as 0, but the
health is read from `7`: with reward and damage `0` the Set-Cookie value is `5&7`, not `5&0`. -/
theorem empty_segment_is_skipped :
    segments "5&&7".toList = [ "5".toList, [], "7".toList ]
      ∧ (choose_handler literal_addr stale
            (get "/var/www/html/cyp/stage2".toList (some "5&&7".toList))
            (stage2 "0".toList "0".toList none)).map response.set_cookie
          = some (some "5&7".toList)
      ∧ encode (to_int (to_int (strtol "0".toList) + to_int (strtol "5".toList)))
            (to_int (to_int (strtol []) - to_int (strtol "0".toList)))
          = "5&0".toList
      ∧ "5&7".toList ≠ "5&0".toList :=
  ⟨by rfl, by rfl, by rfl, by decide⟩

/-! ## Lemmas on the loops of replace_str -/

theorem push_front_cons (c : Char) (p : List Char) (ps : List (List Char)) :
    push_front c (p :: ps) = (c :: p) :: ps := rfl

/-- Without an occurrence of `old` the text is its only piece. -/
theorem split_on_of_strstr_none (old : List Char) (s : List Char) (h : strstr s old = none) :
    split_on old 0 s = [s] := by
  induction s with
  | nil => rfl
  | cons c cs ih =>
    cases hp : old.isPrefixOf (c :: cs) with
    | true => rw [strstr_cons_pos c cs old hp] at h; exact absurd h (by simp)
    | false =>
      rw [strstr_cons_neg c cs old hp] at h
      conv_lhs => unfold split_on
      simp only [hp, Bool.false_eq_true, if_false]
      rw [ih (by simpa using h)]
      rfl

/-- With the first occurrence of `old` at offset `l`, the first piece is the text before it
and the other pieces are those of the text after the occurrence. -/
theorem split_on_of_strstr_some (old : List Char) (hold : old ≠ []) (s : List Char) (l : Nat)
    (h : strstr s old = some l) :
    split_on old 0 s = s.take l :: split_on old 0 (s.drop (l + old.length)) := by
  induction s generalizing l with
  | nil => rw [strstr_nil old hold] at h; exact absurd h (by simp)
  | cons c cs ih =>
    cases hp : old.isPrefixOf (c :: cs) with
    | true =>
      rw [strstr_cons_pos c cs old hp] at h
      have hl : l = 0 := by simpa using h.symm
      subst hl
      obtain ⟨n, hn⟩ : ∃ n, old.length = n + 1 :=
        ⟨old.length - 1, by have := List.length_pos.mpr hold; omega⟩
      conv_lhs => unfold split_on
      rw [if_pos hp, split_on_skip, hn]
      simp
    | false =>
      rw [strstr_cons_neg c cs old hp] at h
      cases hs : strstr cs old with
      | none => rw [hs] at h; exact absurd h (by simp)
      | some l2 =>
        rw [hs] at h
        have hl : l = l2 + 1 := by simpa using h.symm
        subst hl
        conv_lhs => unfold split_on
        simp only [hp, Bool.false_eq_true, if_false]
        rw [ih l2 hs, push_front_cons]
        have : l2 + 1 + old.length = (l2 + old.length) + 1 := by omega
        rw [this]
        simp

theorem occurrences_of_strstr_none (old s : List Char) (h : strstr s old = none) :
    occurrences old s = 0 := by
  unfold occurrences
  rw [split_on_of_strstr_none old s h]
  rfl

theorem occurrences_of_strstr_some (old : List Char) (hold : old ≠ []) (s : List Char)
    (l : Nat) (h : strstr s old = some l) :
    occurrences old s = occurrences old (s.drop (l + old.length)) + 1 := by
  unfold occurrences
  rw [split_on_of_strstr_some old hold s l h]
  have := List.length_pos.mpr (split_on_ne_nil old 0 (s.drop (l + old.length)))
  simp only [List.length_cons]
  omega

/-- The counting loop counts the occurrences and stops on a tail of the text. -/
theorem count_loop_eq (old : List Char) (hold : old ≠ []) (fuel : Nat) (p : List Char)
    (count : Nat) (hf : p.length < fuel) :
    ∃ pf, count_loop old fuel p count = some (count + occurrences old p, pf)
      ∧ pf.length ≤ p.length := by
  induction fuel generalizing p count with
  | zero => omega
  | succ fuel ih =>
    unfold count_loop
    cases hs : strstr p old with
    | none =>
      refine ⟨p, ?_, le_refl _⟩
      simp [occurrences_of_strstr_none old p hs]
    | some l =>
      have hpos := strstr_some_ne_nil old hold p l hs
      have holdpos := List.length_pos.mpr hold
      have hlen : (p.drop (l + old.length)).length < fuel := by
        rw [List.length_drop]; omega
      obtain ⟨pf, h1, h2⟩ := ih (p.drop (l + old.length)) (count + 1) hlen
      refine ⟨pf, ?_, ?_⟩
      · simp only
        rw [h1, occurrences_of_strstr_some old hold p l hs]
        have e : count + 1 + occurrences old (p.drop (l + old.length))
            = count + (occurrences old (p.drop (l + old.length)) + 1) := by omega
        rw [e]
      · rw [List.length_drop] at h2
        omega

/-- The length of the joined pieces: every occurrence of `old` has become a `new`. -/
theorem joined_length (old new : List Char) (hold : old ≠ []) (n : Nat) (s : List Char)
    (hn : s.length < n) :
    (new.intercalate (split_on old 0 s)).length + occurrences old s * old.length
        = s.length + occurrences old s * new.length
      ∧ occurrences old s * old.length ≤ s.length := by
  induction n generalizing s with
  | zero => omega
  | succ n ih =>
    cases hs : strstr s old with
    | none =>
      rw [join_of_strstr_none old new s hs, occurrences_of_strstr_none old s hs]
      simp
    | some l =>
      have hpos := strstr_some_ne_nil old hold s l hs
      have holdpos := List.length_pos.mpr hold
      have hsplit := congrArg List.length (strstr_split old s l hs)
      obtain ⟨ih1, ih2⟩ := ih (s.drop (l + old.length)) (by rw [List.length_drop]; omega)
      rw [join_of_strstr_some old new hold s l hs, occurrences_of_strstr_some old hold s l hs]
      simp only [List.length_append] at hsplit ⊢
      rw [Nat.add_mul, Nat.add_mul]
      constructor <;> omega

/-- The arithmetic of `retlen` modulo `2^64`. -/
theorem retlen_arith (len k oldlen newlen out : Nat) (hk : k * oldlen ≤ len)
    (hold : oldlen < 2 ^ 64 ∨ k = 0) (hout : out + k * oldlen = len + k * newlen) :
    (len + k * ((newlen + 2 ^ 64 - oldlen) % 2 ^ 64)) % 2 ^ 64 = out % 2 ^ 64 := by
  rcases hold with hold | hk0
  · have h1 : (len + k * ((newlen + 2 ^ 64 - oldlen) % 2 ^ 64)) % 2 ^ 64
        = (len + k * (newlen + 2 ^ 64 - oldlen)) % 2 ^ 64 := by
      rw [Nat.add_mod, Nat.mul_mod, Nat.mod_mod, ← Nat.mul_mod, ← Nat.add_mod]
    have h2 : len + k * (newlen + 2 ^ 64 - oldlen) = out + k * 2 ^ 64 := by
      have h3 : k * (newlen + 2 ^ 64 - oldlen) = k * newlen + k * 2 ^ 64 - k * oldlen := by
        rw [Nat.mul_sub, Nat.mul_add]
      have h4 : k * oldlen ≤ k * newlen + k * 2 ^ 64 :=
        le_trans (Nat.mul_le_mul_left k (le_of_lt hold)) (Nat.le_add_left _ _)
      omega
    rw [h1, h2, Nat.add_mul_mod_self_right]
  · subst hk0
    simp at hout ⊢
    rw [hout]

/-- For a non-empty `old`, the result length `retlen` is the length of the result modulo
`2^64`, and the result has `strlen(str) + count * newlen - count * oldlen` characters. -/
theorem retlen_eq_mod (str old new : List Char) (hold : old ≠ [])
    (hstr : str.length < SIZE_MODULUS) :
    ∃ out, replace_str str old new = some out
      ∧ out.length
          = str.length + occurrences old str * new.length - occurrences old str * old.length
      ∧ occurrences old str * old.length ≤ str.length
      ∧ replace_str_retlen str old new = some (out.length % SIZE_MODULUS)
      ∧ (old.length ≠ new.length →
          ∃ pf, count_loop old (str.length + 1) str 0 = some (occurrences old str, pf)) := by
  obtain ⟨hlen, hle⟩ := joined_length old new hold _ str (Nat.lt_succ_self _)
  obtain ⟨pf, hcount, hpf⟩ := count_loop_eq old hold (str.length + 1) str 0 (Nat.lt_succ_self _)
  rw [Nat.zero_add] at hcount
  refine ⟨_, replace_str_eq str old new hold, by omega, hle, ?_, fun _ => ⟨pf, hcount⟩⟩
  unfold SIZE_MODULUS at hstr ⊢
  unfold replace_str_retlen
  by_cases heq : old.length = new.length
  · rw [if_neg (not_not.mpr heq)]
    rw [← heq] at hlen
    have : (new.intercalate (split_on old 0 str)).length = str.length := by omega
    rw [this, Nat.mod_eq_of_lt hstr]
  · rw [if_pos heq, hcount]
    simp only [Option.map_some']
    have e : str.length - pf.length + pf.length = str.length := by omega
    rw [e]
    have hor : old.length < 2 ^ 64 ∨ occurrences old str = 0 := by
      rcases Nat.eq_zero_or_pos (occurrences old str) with h0 | h0
      · exact Or.inr h0
      · left
        have : old.length ≤ occurrences old str * old.length := Nat.le_mul_of_pos_left _ h0
        omega
    rw [retlen_arith str.length (occurrences old str) old.length new.length _ hle hor hlen]

/-- A text without infix `old` has no occurrence for `strstr`. -/
theorem strstr_none_of_no_occurrence (old s : List Char) (h : ¬ old <:+: s) :
    strstr s old = none := by
  cases hs : strstr s old with
  | none => rfl
  | some l =>
    exact absurd ⟨s.take l, s.drop (l + old.length), (strstr_split old s l hs).symm⟩ h

theorem split_on_replicate_length (n : Nat) :
    (split_on [ 'a' ] 0 (List.replicate n 'a')).length = n + 1 := by
  induction n with
  | zero => rfl
  | succ n ih =>
    rw [List.replicate_succ]
    unfold split_on
    have hp : [ 'a' ].isPrefixOf ('a' :: List.replicate n 'a') = true := by
      simp [List.isPrefixOf]
    rw [if_pos hp]
    simp only [List.length_cons, List.length_nil, Nat.sub_self, Nat.zero_add]
    rw [ih]

/-- Replacing every `a` of `n` letters `a` by `n` letters `a`: `n * n` characters are written
and `retlen` is `n * n` modulo `2^64`. -/
theorem retlen_replicate (n : Nat) (hn : n < SIZE_MODULUS) :
    replace_str_retlen (List.replicate n 'a') [ 'a' ] (List.replicate n 'a')
        = some ((n * n) % SIZE_MODULUS)
      ∧ ∃ out, replace_str (List.replicate n 'a') [ 'a' ] (List.replicate n 'a') = some out
          ∧ out.length = n * n := by
  have hocc : occurrences [ 'a' ] (List.replicate n 'a') = n := by
    unfold occurrences
    rw [split_on_replicate_length]
    rfl
  obtain ⟨out, hout, hlen, -, hret, -⟩ :=
    retlen_eq_mod (List.replicate n 'a') [ 'a' ] (List.replicate n 'a') (by simp)
      (by rw [List.length_replicate]; exact hn)
  rw [hocc, List.length_replicate] at hlen
  simp only [List.length_singleton, Nat.mul_one, Nat.add_sub_cancel_left] at hlen
  rw [hlen] at hret
  exact ⟨hret, out, hout, hlen⟩

/-! ## C14 -/

/-- C14: for every template `str` that contains no occurrence of the placeholder `old`, and
every value `new`, `replace_str(str, old, new)` returns a string equal to `str`. -/
theorem replace_str_without_occurrence (str old new : List Char) (h : ¬ old <:+: str) :
    replace_str str old new = some str := by
  have hs := strstr_none_of_no_occurrence old str h
  unfold replace_str replace_loop
  rw [hs]
  rfl

/-- A template without `{{health}}`. -/
theorem replace_str_without_occurrence_witness :
    ¬ "\x7b\x7bhealth\x7d\x7d".toList <:+: "<p>\x7b\x7btitle\x7d\x7d</p>".toList
      ∧ replace_str "<p>\x7b\x7btitle\x7d\x7d</p>".toList "\x7b\x7bhealth\x7d\x7d".toList
          "20".toList = some "<p>\x7b\x7btitle\x7d\x7d</p>".toList :=
  ⟨by decide,
    replace_str_without_occurrence "<p>\x7b\x7btitle\x7d\x7d</p>".toList
      "\x7b\x7bhealth\x7d\x7d".toList "20".toList (by decide)⟩

/-! ## C20 -/

/-- C20 (amended): for every `str` shorter than `2^64`, every non-empty `old` and every `new`,
the copy loop and the final `strcpy` write `strlen(str) + count * newlen - count * oldlen`
characters, where `count` is the number of left-to-right non-overlapping occurrences of `old`
in `str` (the value the counting loop computes), and the result length `retlen` computed in
`size_t` arithmetic is that number modulo `2^64`: it is exactly that number whenever it is
below `2^64`, also when `new` is shorter than `old`. -/
theorem retlen_counts_written_characters (str old new : List Char) (hold : old ≠ [])
    (hstr : str.length < SIZE_MODULUS) :
    ∃ out, replace_str str old new = some out
      ∧ out.length
          = str.length + occurrences old str * new.length - occurrences old str * old.length
      ∧ (old.length ≠ new.length →
          ∃ pf, count_loop old (str.length + 1) str 0 = some (occurrences old str, pf))
      ∧ replace_str_retlen str old new = some (out.length % SIZE_MODULUS)
      ∧ (out.length < SIZE_MODULUS → replace_str_retlen str old new = some out.length) := by
  obtain ⟨out, h1, h2, -, h4, h5⟩ := retlen_eq_mod str old new hold hstr
  exact ⟨out, h1, h2, h5, h4, fun hlt => by rw [h4, Nat.mod_eq_of_lt hlt]⟩

/-- A value shorter than the placeholder: `{{title}}` replaced by `Hi` in a text with two
occurrences, 26 characters become 12. -/
theorem retlen_counts_written_characters_witness :
    "\x7b\x7btitle\x7d\x7d".toList ≠ []
      ∧ occurrences "\x7b\x7btitle\x7d\x7d".toList
          "<b>\x7b\x7btitle\x7d\x7d</b> \x7b\x7btitle\x7d\x7d".toList = 2
      ∧ replace_str_retlen "<b>\x7b\x7btitle\x7d\x7d</b> \x7b\x7btitle\x7d\x7d".toList
          "\x7b\x7btitle\x7d\x7d".toList "Hi".toList = some 12
      ∧ ∃ out, replace_str "<b>\x7b\x7btitle\x7d\x7d</b> \x7b\x7btitle\x7d\x7d".toList
            "\x7b\x7btitle\x7d\x7d".toList "Hi".toList = some out
          ∧ out.length
              = "<b>\x7b\x7btitle\x7d\x7d</b> \x7b\x7btitle\x7d\x7d".toList.length
                + occurrences "\x7b\x7btitle\x7d\x7d".toList
                    "<b>\x7b\x7btitle\x7d\x7d</b> \x7b\x7btitle\x7d\x7d".toList
                  * "Hi".toList.length
                - occurrences "\x7b\x7btitle\x7d\x7d".toList
                    "<b>\x7b\x7btitle\x7d\x7d</b> \x7b\x7btitle\x7d\x7d".toList
                  * "\x7b\x7btitle\x7d\x7d".toList.length
          ∧ ("\x7b\x7btitle\x7d\x7d".toList.length ≠ "Hi".toList.length →
              ∃ pf, count_loop "\x7b\x7btitle\x7d\x7d".toList
                  ("<b>\x7b\x7btitle\x7d\x7d</b> \x7b\x7btitle\x7d\x7d".toList.length + 1)
                  "<b>\x7b\x7btitle\x7d\x7d</b> \x7b\x7btitle\x7d\x7d".toList 0
                = some (occurrences "\x7b\x7btitle\x7d\x7d".toList
                    "<b>\x7b\x7btitle\x7d\x7d</b> \x7b\x7btitle\x7d\x7d".toList, pf))
          ∧ replace_str_retlen "<b>\x7b\x7btitle\x7d\x7d</b> \x7b\x7btitle\x7d\x7d".toList
              "\x7b\x7btitle\x7d\x7d".toList "Hi".toList = some (out.length % SIZE_MODULUS)
          ∧ (out.length < SIZE_MODULUS →
              replace_str_retlen "<b>\x7b\x7btitle\x7d\x7d</b> \x7b\x7btitle\x7d\x7d".toList
                "\x7b\x7btitle\x7d\x7d".toList "Hi".toList = some out.length) :=
  ⟨by decide, by rfl, by rfl,
    retlen_counts_written_characters
      "<b>\x7b\x7btitle\x7d\x7d</b> \x7b\x7btitle\x7d\x7d".toList
      "\x7b\x7btitle\x7d\x7d".toList "Hi".toList (by decide) (by decide)⟩

/-- C20 as stated fails when the result has `2^64` characters or more: replacing every `a`
of `2^32` letters `a` by `2^32` letters `a` writes `2^64` characters, and `retlen`, computed
modulo `2^64`, is 0. -/
theorem retlen_wraps_for_huge_result :
    replace_str_retlen (List.replicate 4294967296 'a') [ 'a' ] (List.replicate 4294967296 'a')
        = some 0
      ∧ ∃ out, replace_str (List.replicate 4294967296 'a') [ 'a' ]
            (List.replicate 4294967296 'a') = some out
          ∧ out.length = 18446744073709551616 := by
  obtain ⟨h1, out, h2, h3⟩ := retlen_replicate 4294967296 (by norm_num [SIZE_MODULUS])
  refine ⟨?_, out, h2, ?_⟩
  · rw [h1]
    norm_num [SIZE_MODULUS]
  · rw [h3]

/-! ## C15 -/

/-- The default layout prints the choices text. -/
theorem default_layout_contains_choices (l : locals) (config : choose_config) :
    choices_text config <:+: default_layout l config := by
  refine ⟨banner
    ++ "Treasure: ".toList ++ fmt_i l.i ++ " Int: ".toList ++ fmt_i l.config_treasure
    ++ "<br />".toList
    ++ "Health: ".toList ++ fmt_i l.i ++ " Int: ".toList ++ fmt_i l.config_damage
    ++ "<br />".toList
    ++ "<h3>".toList ++ fmt_s config.level_title ++ "</h3>".toList
    ++ "<p>".toList ++ fmt_s config.level_description ++ "</p>".toList,
    "<p>--Stats--</p>".toList
    ++ "<p>Gained ".toList ++ fmt_s config.treasure ++ " treasure</p>".toList
    ++ "<p>Took ".toList ++ fmt_s config.damage ++ " damange</p>".toList, ?_⟩
  unfold default_layout
  simp only [List.append_assoc]

/-- The choices text when left path and left label are empty. -/
theorem choices_text_empty_left (config : choose_config)
    (hl : config.move_left = some []) (ht : config.move_left_title = some []) :
    choices_text config
      = "<p><--<a href=\"\"></a> (O) <a href=\"".toList ++ fmt_s config.move_right
          ++ "\">".toList ++ fmt_s config.move_right_title ++ "</a> --></p>".toList := by
  unfold choices_text
  rw [hl, ht]
  have e : "<p><--<a href=\"".toList ++ fmt_s (some []) ++ "\">".toList ++ fmt_s (some [])
      ++ "</a> (O) <a href=\"".toList = "<p><--<a href=\"\"></a> (O) <a href=\"".toList := by
    rfl
  rw [e]

/-- C15 (amended): in the default layout, for every descriptor whose left path and left label
are both empty, the navigation block still holds the left anchor, with an empty `href` and an
empty text, before the right choice: it is
`<p><--<a href=""></a> (O) <a href="RIGHT">LABEL</a> --></p>`, and the default layout prints
it. -/
theorem empty_left_choice_is_still_printed (l : locals) (config : choose_config)
    (hl : config.move_left = some []) (ht : config.move_left_title = some []) :
    choices_text config
        = "<p><--<a href=\"\"></a> (O) <a href=\"".toList ++ fmt_s config.move_right
            ++ "\">".toList ++ fmt_s config.move_right_title ++ "</a> --></p>".toList
      ∧ "<a href=\"\"></a>".toList <:+: choices_text config
      ∧ choices_text config <:+: default_layout l config := by
  refine ⟨choices_text_empty_left config hl ht, ?_, default_layout_contains_choices l config⟩
  rw [choices_text_empty_left config hl ht]
  refine ⟨"<p><--".toList, " (O) <a href=\"".toList ++ fmt_s config.move_right
    ++ "\">".toList ++ fmt_s config.move_right_title ++ "</a> --></p>".toList, ?_⟩
  simp only [List.append_assoc]
  rfl

/-- The first level, whose left path and label are empty. -/
theorem empty_left_choice_is_still_printed_witness :
    first_level.move_left = some [] ∧ first_level.move_left_title = some []
      ∧ (choices_text first_level
          = "<p><--<a href=\"\"></a> (O) <a href=\"".toList ++ fmt_s first_level.move_right
              ++ "\">".toList ++ fmt_s first_level.move_right_title ++ "</a> --></p>".toList
        ∧ "<a href=\"\"></a>".toList <:+: choices_text first_level
        ∧ choices_text first_level
            <:+: default_layout
              { i := 2, show_flag := 1, config_treasure := 50, config_damage := 800
                cookie := "50&800".toList, overrun := false } first_level) :=
  ⟨rfl, rfl,
    empty_left_choice_is_still_printed
      { i := 2, show_flag := 1, config_treasure := 50, config_damage := 800
        cookie := "50&800".toList, overrun := false } first_level rfl rfl⟩

set_option maxRecDepth 8000 in
/-- C15 as stated fails: for the first level, whose left path and left label are empty, the
navigation block is `<p><--<a href=""></a> (O) <a href="/cyp/stage2">Stage 2.</a> --></p>`,
with a left anchor, and this is what the default layout of the handler's body holds. -/
theorem left_anchor_is_emitted_when_empty :
    first_level.move_left = some [] ∧ first_level.move_left_title = some []
      ∧ choices_text first_level
          = "<p><--<a href=\"\"></a> (O) <a href=\"/cyp/stage2\">Stage 2.</a> --></p>".toList
      ∧ ∃ resp l, choose_handler literal_addr stale
            (get "/var/www/html/cyp".toList (some "50&800".toList)) first_level = some resp
          ∧ resp.body = default_layout l first_level
          ∧ "<p><--<a href=\"\"></a> (O) <a href=\"/cyp/stage2\">Stage 2.</a> --></p>".toList
              <:+: resp.body := by
  have hl : read_cookie literal_addr stale
      (get "/var/www/html/cyp".toList (some "50&800".toList)) first_level
      = some { i := 2, show_flag := 1, config_treasure := 50, config_damage := 800
               cookie := "50&800".toList, overrun := false } := by rfl
  obtain ⟨resp, h1, -, -, -, h5, -⟩ :=
    choose_handler_visible literal_addr stale
      (get "/var/www/html/cyp".toList (some "50&800".toList)) first_level _ rfl (by decide)
      hl rfl
  have hc : choices_text first_level
      = "<p><--<a href=\"\"></a> (O) <a href=\"/cyp/stage2\">Stage 2.</a> --></p>".toList := by
    rfl
  refine ⟨rfl, rfl, hc, resp, _, h1, h5 rfl, ?_⟩
  rw [h5 rfl, ← hc]
  exact default_layout_contains_choices _ _

/-! ## C16 -/

/-- A text without occurrence of `old` for `strstr` is returned as it is. -/
theorem replace_str_of_strstr_none (str old new : List Char) (h : strstr str old = none) :
    replace_str str old new = some str := by
  unfold replace_str replace_loop
  rw [h]
  rfl

/-- The templated layout of the template `{{choices}}`: the choices fragment, when it holds
neither `{{stageTitle}}` nor `{{description}}`. -/
theorem templated_layout_of_choices (config : choose_config) (hres : resolved config)
    (h1 : ¬ "\x7b\x7bstageTitle\x7d\x7d".toList <:+: choices_fragment config)
    (h2 : ¬ "\x7b\x7bdescription\x7d\x7d".toList <:+: choices_fragment config) :
    templated_layout config "\x7b\x7bchoices\x7d\x7d".toList
      = some (choices_fragment config) := by
  obtain ⟨r1, r2, r3, r4⟩ := hres
  obtain ⟨title, htitle⟩ := Option.ne_none_iff_exists'.mp r1
  obtain ⟨descr, hdescr⟩ := Option.ne_none_iff_exists'.mp r2
  obtain ⟨tr, htr⟩ := Option.ne_none_iff_exists'.mp r3
  obtain ⟨dm, hdm⟩ := Option.ne_none_iff_exists'.mp r4
  have e1 : replace_str "\x7b\x7bchoices\x7d\x7d".toList "\x7b\x7btitle\x7d\x7d".toList
      "Choose Your Path".toList = some "\x7b\x7bchoices\x7d\x7d".toList :=
    replace_str_of_strstr_none _ _ _ (by rfl)
  have e2 : replace_str "\x7b\x7bchoices\x7d\x7d".toList "\x7b\x7bhealth\x7d\x7d".toList dm
      = some "\x7b\x7bchoices\x7d\x7d".toList :=
    replace_str_of_strstr_none _ _ _ (by rfl)
  have e3 : replace_str "\x7b\x7bchoices\x7d\x7d".toList "\x7b\x7btreasure\x7d\x7d".toList tr
      = some "\x7b\x7bchoices\x7d\x7d".toList :=
    replace_str_of_strstr_none _ _ _ (by rfl)
  have e4 : replace_str "\x7b\x7bchoices\x7d\x7d".toList "\x7b\x7bchoices\x7d\x7d".toList
      (choices_fragment config) = some (choices_fragment config) := by
    rw [replace_str_eq _ _ _ (by decide)]
    have hs : split_on "\x7b\x7bchoices\x7d\x7d".toList 0 "\x7b\x7bchoices\x7d\x7d".toList
        = [[], []] := by rfl
    rw [hs]
    simp [List.intercalate, List.intersperse]
  have e5 := replace_str_of_strstr_none (choices_fragment config)
    "\x7b\x7bstageTitle\x7d\x7d".toList title (strstr_none_of_no_occurrence _ _ h1)
  have e6 := replace_str_of_strstr_none (choices_fragment config)
    "\x7b\x7bdescription\x7d\x7d".toList descr (strstr_none_of_no_occurrence _ _ h2)
  unfold templated_layout
  rw [e1, htitle, hdescr, htr, hdm]
  simp only [Option.some_bind]
  rw [e2]
  simp only [Option.some_bind]
  rw [e3]
  simp only [Option.some_bind]
  have e4b : replace_str "\x7b\x7bchoices\x7d\x7d".toList "\x7b\x7bchoices\x7d\x7d".toList
      ((choices_text config).take (CHOICES_SIZE - 1)) = some (choices_fragment config) := e4
  rw [e4b]
  simp only [Option.some_bind]
  rw [e5]
  simp only [Option.some_bind]
  exact e6

/-- C16 (amended): the choices fragment substituted for `{{choices}}` in the templated layout
is the navigation block of the default layout cut to its first 99 characters, what `snprintf`
leaves in `choices[100]`: for every resolved descriptor whose fragment holds no later
placeholder, the templated layout of the template `{{choices}}` is that fragment, and it is
the same string as the navigation block whenever the block has at most 99 characters. -/
theorem choices_fragment_is_cut_block (config : choose_config) (hres : resolved config)
    (h1 : ¬ "\x7b\x7bstageTitle\x7d\x7d".toList <:+: choices_fragment config)
    (h2 : ¬ "\x7b\x7bdescription\x7d\x7d".toList <:+: choices_fragment config) :
    templated_layout config "\x7b\x7bchoices\x7d\x7d".toList = some (choices_fragment config)
      ∧ choices_fragment config = (choices_text config).take 99
      ∧ ((choices_text config).length ≤ 99 → choices_fragment config = choices_text config) :=
  ⟨templated_layout_of_choices config hres h1 h2, rfl, fun h => by
    unfold choices_fragment CHOICES_SIZE
    exact List.take_of_length_le h⟩

set_option maxRecDepth 8000 in
/-- The sample level of the source: its navigation block has 88 characters. -/
theorem choices_fragment_is_cut_block_witness :
    resolved (stage2 "10".toList "20".toList none)
      ∧ (choices_text (stage2 "10".toList "20".toList none)).length = 88
      ∧ (templated_layout (stage2 "10".toList "20".toList none)
            "\x7b\x7bchoices\x7d\x7d".toList
          = some (choices_fragment (stage2 "10".toList "20".toList none))
        ∧ choices_fragment (stage2 "10".toList "20".toList none)
          = (choices_text (stage2 "10".toList "20".toList none)).take 99
        ∧ ((choices_text (stage2 "10".toList "20".toList none)).length ≤ 99 →
            choices_fragment (stage2 "10".toList "20".toList none)
              = choices_text (stage2 "10".toList "20".toList none))) :=
  ⟨by decide, by rfl,
    choices_fragment_is_cut_block (stage2 "10".toList "20".toList none) (by decide)
      (by decide) (by decide)⟩

set_option maxRecDepth 8000 in
/-- C16 as stated fails for a long label: the navigation block of `long_level` has 121
characters, the default layout prints all of them, and the templated layout of the template
`{{choices}}` is the first 99 of them, cut in the middle of the right label. -/
theorem long_choices_are_cut :
    (choices_text long_level).length = 121
      ∧ choices_text long_level
          = ("<p><--<a href=\"/cyp\">Back to stage 1.</a> (O) <a href=\"/cyp/stage3\">".toList
              ++ "Follow the narrow path down to the river.</a> --></p>".toList)
      ∧ (choose_handler literal_addr stale
            (get "/var/www/html/cyp/stage2".toList (some "50&800".toList))
            long_level).map response.body
          = some ("<p><--<a href=\"/cyp\">Back to stage 1.</a> (O) <a href=\"/cyp/stage3\">".toList
              ++ "Follow the narrow path down to ".toList)
      ∧ choices_fragment long_level ≠ choices_text long_level :=
  ⟨by rfl, by rfl, by rfl, by decide⟩

/-! ## C17 -/

/-- C17: the left choice is always set as a pair. `choose_set_move_left` sets `move_left` and
`move_left_title` together; and for every parent and child configuration in each of which
`move_left` is unset exactly when `move_left_title` is, `choose_merge_conf` returns a
configuration in which both are set: both empty when neither level set them, and otherwise
both from the child when the child set them, both from the parent when only the parent did. -/
theorem left_choice_is_a_pair (base add conf : choose_config) (arg1 arg2 : List Char)
    (hb : left_paired base) (ha : left_paired add) :
    (∃ conf2, choose_set_move_left (some conf) arg1 arg2 = some conf2
        ∧ conf2.move_left = some arg1 ∧ conf2.move_left_title = some arg2
        ∧ left_paired conf2)
      ∧ (choose_merge_conf base add).move_left ≠ none
      ∧ (choose_merge_conf base add).move_left_title ≠ none
      ∧ (base.move_left = none → add.move_left = none →
          (choose_merge_conf base add).move_left = some []
            ∧ (choose_merge_conf base add).move_left_title = some [])
      ∧ (add.move_left ≠ none →
          (choose_merge_conf base add).move_left = add.move_left
            ∧ (choose_merge_conf base add).move_left_title = add.move_left_title)
      ∧ (add.move_left = none → base.move_left ≠ none →
          (choose_merge_conf base add).move_left = base.move_left
            ∧ (choose_merge_conf base add).move_left_title = base.move_left_title) := by
  unfold left_paired at hb ha
  refine ⟨⟨_, rfl, rfl, rfl, by simp [left_paired]⟩, ?_⟩
  cases hal : add.move_left with
  | some x =>
    have hat : add.move_left_title ≠ none := fun h => by
      have := ha.mpr h
      rw [hal] at this
      exact absurd this (by simp)
    obtain ⟨y, hy⟩ := Option.ne_none_iff_exists'.mp hat
    simp [choose_merge_conf, merge_field, hal, hy]
  | none =>
    have hat : add.move_left_title = none := ha.mp hal
    cases hbl : base.move_left with
    | some x =>
      have hbt : base.move_left_title ≠ none := fun h => by
        have := hb.mpr h
        rw [hbl] at this
        exact absurd this (by simp)
      obtain ⟨y, hy⟩ := Option.ne_none_iff_exists'.mp hbt
      simp [choose_merge_conf, merge_field, hal, hat, hbl, hy]
    | none =>
      simp [choose_merge_conf, merge_field, hal, hat, hbl]

/-- A child that sets `moveLeft` under a parent that does not. -/
theorem left_choice_is_a_pair_witness :
    left_paired choose_default_conf
      ∧ left_paired (stage2 "10".toList "20".toList none)
      ∧ ((∃ conf2, choose_set_move_left (some choose_default_conf) "/cyp".toList
              "Back".toList = some conf2
            ∧ conf2.move_left = some "/cyp".toList ∧ conf2.move_left_title = some "Back".toList
            ∧ left_paired conf2)
        ∧ (choose_merge_conf choose_default_conf
            (stage2 "10".toList "20".toList none)).move_left ≠ none
        ∧ (choose_merge_conf choose_default_conf
            (stage2 "10".toList "20".toList none)).move_left_title ≠ none
        ∧ (choose_default_conf.move_left = none →
            (stage2 "10".toList "20".toList none).move_left = none →
            (choose_merge_conf choose_default_conf
                (stage2 "10".toList "20".toList none)).move_left = some []
              ∧ (choose_merge_conf choose_default_conf
                (stage2 "10".toList "20".toList none)).move_left_title = some [])
        ∧ ((stage2 "10".toList "20".toList none).move_left ≠ none →
            (choose_merge_conf choose_default_conf
                (stage2 "10".toList "20".toList none)).move_left
                = (stage2 "10".toList "20".toList none).move_left
              ∧ (choose_merge_conf choose_default_conf
                (stage2 "10".toList "20".toList none)).move_left_title
                = (stage2 "10".toList "20".toList none).move_left_title)
        ∧ ((stage2 "10".toList "20".toList none).move_left = none →
            choose_default_conf.move_left ≠ none →
            (choose_merge_conf choose_default_conf
                (stage2 "10".toList "20".toList none)).move_left
                = choose_default_conf.move_left
              ∧ (choose_merge_conf choose_default_conf
                (stage2 "10".toList "20".toList none)).move_left_title
                = choose_default_conf.move_left_title)) :=
  ⟨by decide, by decide,
    left_choice_is_a_pair choose_default_conf (stage2 "10".toList "20".toList none)
      choose_default_conf "/cyp".toList "Back".toList (by decide) (by decide)⟩

/-! ## C18 -/

theorem overrides_merge_field (base add : Option (List Char)) :
    overrides (merge_field base add) base add := by
  unfold overrides
  cases add <;> simp [merge_field]

/-- C18 (amended): `choose_merge_conf` is a layered override, but for the left choice when no
level sets it. For every parent and child configuration, the merged title, description, right
path, right label, treasure, damage and template equal the child's value when the child sets
it and the parent's value when the child omits it; so do the merged left path and left label
when the parent or the child sets the left path; and when neither sets the left path, the
merged left path and left label are both the empty string. -/
theorem merge_is_layered_override (base add : choose_config) :
    overrides (choose_merge_conf base add).level_title base.level_title add.level_title
      ∧ overrides (choose_merge_conf base add).level_description base.level_description
          add.level_description
      ∧ overrides (choose_merge_conf base add).move_right base.move_right add.move_right
      ∧ overrides (choose_merge_conf base add).move_right_title base.move_right_title
          add.move_right_title
      ∧ overrides (choose_merge_conf base add).treasure base.treasure add.treasure
      ∧ overrides (choose_merge_conf base add).damage base.damage add.damage
      ∧ overrides (choose_merge_conf base add).theme_template base.theme_template
          add.theme_template
      ∧ ((base.move_left ≠ none ∨ add.move_left ≠ none) →
          overrides (choose_merge_conf base add).move_left base.move_left add.move_left
            ∧ overrides (choose_merge_conf base add).move_left_title base.move_left_title
                add.move_left_title)
      ∧ (base.move_left = none → add.move_left = none →
          (choose_merge_conf base add).move_left = some []
            ∧ (choose_merge_conf base add).move_left_title = some []) := by
  by_cases hm : merge_field base.move_left add.move_left = none
  · have hadd : add.move_left = none := by
      cases h : add.move_left with
      | none => rfl
      | some x => rw [h] at hm; simp [merge_field] at hm
    have hbase : base.move_left = none := by
      rw [hadd] at hm
      simpa [merge_field] using hm
    refine ⟨?_, ?_, ?_, ?_, ?_, ?_, ?_, ?_, ?_⟩
    · simpa [choose_merge_conf, hm] using overrides_merge_field _ _
    · simpa [choose_merge_conf, hm] using overrides_merge_field _ _
    · simpa [choose_merge_conf, hm] using overrides_merge_field _ _
    · simpa [choose_merge_conf, hm] using overrides_merge_field _ _
    · simpa [choose_merge_conf, hm] using overrides_merge_field _ _
    · simpa [choose_merge_conf, hm] using overrides_merge_field _ _
    · simpa [choose_merge_conf, hm] using overrides_merge_field _ _
    · intro h
      rcases h with h | h
      · exact absurd hbase h
      · exact absurd hadd h
    · intro _ _
      simp [choose_merge_conf, hm]
  · refine ⟨?_, ?_, ?_, ?_, ?_, ?_, ?_, ?_, ?_⟩
    · simpa [choose_merge_conf, hm] using overrides_merge_field _ _
    · simpa [choose_merge_conf, hm] using overrides_merge_field _ _
    · simpa [choose_merge_conf, hm] using overrides_merge_field _ _
    · simpa [choose_merge_conf, hm] using overrides_merge_field _ _
    · simpa [choose_merge_conf, hm] using overrides_merge_field _ _
    · simpa [choose_merge_conf, hm] using overrides_merge_field _ _
    · simpa [choose_merge_conf, hm] using overrides_merge_field _ _
    · intro _
      constructor
      · simpa [choose_merge_conf, hm] using overrides_merge_field _ _
      · simpa [choose_merge_conf, hm] using overrides_merge_field _ _
    · intro hb ha
      rw [hb, ha] at hm
      exact absurd rfl hm

/-- A child with the sample level under a parent without directive. -/
theorem merge_is_layered_override_witness :
    overrides
        (choose_merge_conf choose_default_conf (stage2 "10".toList "20".toList none)).level_title
        choose_default_conf.level_title (stage2 "10".toList "20".toList none).level_title
      ∧ overrides
          (choose_merge_conf choose_default_conf
            (stage2 "10".toList "20".toList none)).level_description
          choose_default_conf.level_description
          (stage2 "10".toList "20".toList none).level_description
      ∧ overrides
          (choose_merge_conf choose_default_conf (stage2 "10".toList "20".toList none)).move_right
          choose_default_conf.move_right (stage2 "10".toList "20".toList none).move_right
      ∧ overrides
          (choose_merge_conf choose_default_conf
            (stage2 "10".toList "20".toList none)).move_right_title
          choose_default_conf.move_right_title
          (stage2 "10".toList "20".toList none).move_right_title
      ∧ overrides
          (choose_merge_conf choose_default_conf (stage2 "10".toList "20".toList none)).treasure
          choose_default_conf.treasure (stage2 "10".toList "20".toList none).treasure
      ∧ overrides
          (choose_merge_conf choose_default_conf (stage2 "10".toList "20".toList none)).damage
          choose_default_conf.damage (stage2 "10".toList "20".toList none).damage
      ∧ overrides
          (choose_merge_conf choose_default_conf
            (stage2 "10".toList "20".toList none)).theme_template
          choose_default_conf.theme_template
          (stage2 "10".toList "20".toList none).theme_template
      ∧ ((choose_default_conf.move_left ≠ none
            ∨ (stage2 "10".toList "20".toList none).move_left ≠ none) →
          overrides
              (choose_merge_conf choose_default_conf
                (stage2 "10".toList "20".toList none)).move_left
              choose_default_conf.move_left (stage2 "10".toList "20".toList none).move_left
            ∧ overrides
                (choose_merge_conf choose_default_conf
                  (stage2 "10".toList "20".toList none)).move_left_title
                choose_default_conf.move_left_title
                (stage2 "10".toList "20".toList none).move_left_title)
      ∧ (choose_default_conf.move_left = none →
          (stage2 "10".toList "20".toList none).move_left = none →
          (choose_merge_conf choose_default_conf
              (stage2 "10".toList "20".toList none)).move_left = some []
            ∧ (choose_merge_conf choose_default_conf
              (stage2 "10".toList "20".toList none)).move_left_title = some []) :=
  merge_is_layered_override choose_default_conf (stage2 "10".toList "20".toList none)

/-- C18 as stated fails for the left path when no level sets it: the merge of two
configurations without any directive has the left path `""`, while the child omits it and the
parent's value is `NULL`. The same holds for a left label set without a left path. -/
theorem merge_defaults_left_choice :
    choose_default_conf.move_left = none
      ∧ (choose_merge_conf choose_default_conf choose_default_conf).move_left = some []
      ∧ (choose_merge_conf choose_default_conf choose_default_conf).move_left
          ≠ choose_default_conf.move_left
      ∧ (choose_merge_conf
            { choose_default_conf with move_left_title := some "Back".toList }
            choose_default_conf).move_left_title = some [] :=
  ⟨rfl, by rfl, by decide, by rfl⟩

/-! ## C19 -/

set_option maxRecDepth 8000 in
/-- C19 (code bug): the cookie `1000000000&1000` with reward and damage `0` makes the handler
convert the treasure 1000000000, whose text has 10 characters: with its NUL it needs 11 bytes,
and `sprintf` writes past the end of `char buffer[10]`. An `int` takes up to 11 characters
(`-2147483648`). -/
theorem large_cookie_overruns_buffer :
    (choose_handler literal_addr stale
          (get "/var/www/html/cyp/stage2".toList (some "1000000000&1000".toList))
          (stage2 "0".toList "0".toList none)).map
            (fun resp => (resp.set_cookie, resp.overrun))
        = some (some "1000000000&1000".toList, true)
      ∧ (fmt_i 1000000000).length = 10
      ∧ sprintf_overruns (fmt_i 1000000000) = true
      ∧ BUFFER_SIZE = 10
      ∧ (fmt_i (to_int (strtol "-2147483648".toList))).length = 11 :=
  ⟨by rfl, by rfl, by rfl, by rfl, by rfl⟩

/-! ## Lemmas on the checked replace_str -/

/-- A checked result is the text the copy loop writes. -/
theorem replace_str_checked_some (str old new out : List Char)
    (h : replace_str_checked str old new = some out) : replace_str str old new = some out := by
  unfold replace_str_checked at h
  cases hr : replace_str_retlen str old new with
  | none => rw [hr] at h; exact absurd h (by simp)
  | some retlen =>
    rw [hr, Option.some_bind] at h
    cases hs : replace_str str old new with
    | none => rw [hs] at h; exact absurd h (by simp)
    | some out2 =>
      rw [hs, Option.some_bind] at h
      by_cases hle : out2.length ≤ retlen
      · rw [if_pos hle] at h
        exact h
      · rw [if_neg hle] at h
        exact absurd h (by simp)

/-- C12 (amended): for every Cookie header whose first two segments are not empty, `A&B` or
`A&B&rest` with `A` and `B` non-empty and free of `&`, and such that the treasure read from
`A` plus the reward and the health read from `B` minus the damage fit the conversion buffer,
the text before the first `&` is read as treasure and the text between the first and the
second `&` as health, and what follows the second `&` does not affect the result: the header
`A&B&rest` yields the same Set-Cookie value as `A&B`, the encoding of those two values, with
no write past the buffer. -/
theorem later_segments_are_ignored (lit_addr : Nat) (g : stack_garbage) (r1 r2 : request_rec)
    (config : choose_config) (A B rest tr dm : List Char)
    (hh1 : r1.handler = some "choose-handler".toList)
    (hh2 : r2.handler = some "choose-handler".toList) (hres : resolved config)
    (hc1 : r1.cookie_data = some (A ++ '&' :: (B ++ '&' :: rest)))
    (hc2 : r2.cookie_data = some (A ++ '&' :: B))
    (hA : A ≠ []) (hAamp : ∀ c ∈ A, c ≠ '&') (hB : B ≠ []) (hBamp : ∀ c ∈ B, c ≠ '&')
    (htr : config.treasure = some tr) (hdm : config.damage = some dm)
    (hT : fits_buffer (to_int (strtol tr) + to_int (strtol A)))
    (hH : fits_buffer (to_int (strtol B) - to_int (strtol dm))) :
    ∃ resp1 resp2, choose_handler lit_addr g r1 config = some resp1
      ∧ choose_handler lit_addr g r2 config = some resp2
      ∧ resp1.set_cookie = resp2.set_cookie
      ∧ resp2.set_cookie
          = some (encode (to_int (strtol tr) + to_int (strtol A))
              (to_int (strtol B) - to_int (strtol dm)))
      ∧ resp1.overrun = false ∧ resp2.overrun = false := by
  have hTi := fits_int_of_fits_buffer _ hT
  have hHi := fits_int_of_fits_buffer _ hH
  have eT := to_int_of_range _ hTi.1 hTi.2
  have eH := to_int_of_range _ hHi.1 hHi.2
  obtain ⟨k, hl1⟩ := read_cookie_more lit_addr g r1 config A B rest tr dm hc1 hA hAamp hB hBamp
    htr hdm
  have hl2 := read_cookie_two lit_addr g r2 config A B tr dm hc2 hA hAamp hB hBamp htr hdm
  rw [eT, eH] at hl1 hl2
  obtain ⟨resp1, a1, -, a3, a4, -, -⟩ :=
    choose_handler_visible lit_addr g r1 config _ hh1 hres hl1 rfl
  obtain ⟨resp2, b1, -, b3, b4, -, -⟩ :=
    choose_handler_visible lit_addr g r2 config _ hh2 hres hl2 rfl
  refine ⟨resp1, resp2, a1, b1, by rw [a3, b3], by rw [b3]; rfl, ?_, ?_⟩
  · rw [a4]
    simp [sprintf_overruns_of_fits _ hT, sprintf_overruns_of_fits _ hH]
  · rw [b4]
    simp [sprintf_overruns_of_fits _ hT, sprintf_overruns_of_fits _ hH]

/-- The headers `50&800&x&9` and `50&800` with reward `10` and damage `20`. -/
theorem later_segments_are_ignored_witness :
    (get "/var/www/html/cyp/stage2".toList (some "50&800&x&9".toList)).cookie_data
        = some ("50".toList ++ '&' :: ("800".toList ++ '&' :: "x&9".toList))
      ∧ (get "/var/www/html/cyp/stage2".toList (some "50&800".toList)).cookie_data
        = some ("50".toList ++ '&' :: "800".toList)
      ∧ fits_buffer (to_int (strtol "10".toList) + to_int (strtol "50".toList))
      ∧ fits_buffer (to_int (strtol "800".toList) - to_int (strtol "20".toList))
      ∧ encode (to_int (strtol "10".toList) + to_int (strtol "50".toList))
            (to_int (strtol "800".toList) - to_int (strtol "20".toList))
          = "60&780".toList
      ∧ ∃ resp1 resp2, choose_handler literal_addr stale
            (get "/var/www/html/cyp/stage2".toList (some "50&800&x&9".toList))
            (stage2 "10".toList "20".toList none) = some resp1
          ∧ choose_handler literal_addr stale
            (get "/var/www/html/cyp/stage2".toList (some "50&800".toList))
            (stage2 "10".toList "20".toList none) = some resp2
          ∧ resp1.set_cookie = resp2.set_cookie
          ∧ resp2.set_cookie
              = some (encode (to_int (strtol "10".toList) + to_int (strtol "50".toList))
                  (to_int (strtol "800".toList) - to_int (strtol "20".toList)))
          ∧ resp1.overrun = false ∧ resp2.overrun = false :=
  ⟨rfl, rfl, by decide, by decide, by rfl,
    later_segments_are_ignored literal_addr stale
      (get "/var/www/html/cyp/stage2".toList (some "50&800&x&9".toList))
      (get "/var/www/html/cyp/stage2".toList (some "50&800".toList))
      (stage2 "10".toList "20".toList none) "50".toList "800".toList "x&9".toList
      "10".toList "20".toList rfl rfl (by decide) rfl rfl (by decide) (by decide) (by decide)
      (by decide) rfl rfl (by decide) (by decide)⟩

/-! ## C3 -/

/-- The checked templated layout, when defined, is the text of the templated layout. -/
theorem templated_layout_checked_some (config : choose_config) (template body : List Char)
    (h : templated_layout_checked config template = some body) :
    templated_layout config template = some body := by
  unfold templated_layout_checked at h
  by_cases hfit : template.length + 1 ≤ malloc_usable template.length
  · rw [if_pos hfit] at h
    simp only [Option.bind_eq_some] at h
    obtain ⟨p1, h1, dm, hdm, p2, h2, tr, htr, p3, h3, p4, h4, ti, hti, p5, h5, de, hde, h6⟩ := h
    unfold templated_layout
    rw [replace_str_checked_some _ _ _ _ h1, Option.some_bind, hdm, Option.some_bind,
      replace_str_checked_some _ _ _ _ h2, Option.some_bind, htr, Option.some_bind,
      replace_str_checked_some _ _ _ _ h3, Option.some_bind,
      replace_str_checked_some _ _ _ _ h4, Option.some_bind, hti, Option.some_bind,
      replace_str_checked_some _ _ _ _ h5, Option.some_bind, hde, Option.some_bind,
      replace_str_checked_some _ _ _ _ h6]
  · rw [if_neg hfit] at h
    exact absurd h (by simp)

/-- The locals after a Cookie header whose conversions fit: `show` is 1 and no `sprintf` has
left the buffer. -/
theorem read_cookie_fits (lit_addr : Nat) (g : stack_garbage) (r : request_rec)
    (config : choose_config) (header tr dm : List Char)
    (hc : r.cookie_data = some header)
    (htr : config.treasure = some tr) (hdm : config.damage = some dm)
    (hfit : conversions_fit config header = true) :
    ∃ l, read_cookie lit_addr g r config = some l ∧ l.show_flag = 1 ∧ l.overrun = false := by
  have later : ∀ (fuel : Nat) (pending : Option (List Char × List Char)) (L : locals),
      2 ≤ L.i → L.show_flag = 1 → L.overrun = false →
      (∀ tok rest, pending = some (tok, rest) → rest.length < fuel) →
      ∃ l, cookie_loop config fuel pending L = some l ∧ l.show_flag = 1 ∧ l.overrun = false := by
    intro fuel pending L hi hs ho hf
    obtain ⟨k, hk⟩ := cookie_loop_later config fuel pending L hi hf
    exact ⟨_, hk, hs, ho⟩
  unfold conversions_fit at hfit
  rw [htr, hdm] at hfit
  simp only [Option.getD_some] at hfit
  unfold read_cookie
  rw [hc]
  simp only []
  cases h1 : strtok header with
  | none => exact ⟨_, cookie_loop_none _ _ _, rfl, rfl⟩
  | some first =>
    obtain ⟨A, rest⟩ := first
    rw [h1] at hfit
    simp only [Bool.and_eq_true, decide_eq_true_eq] at hfit
    obtain ⟨hT, hfit2⟩ := hfit
    have hTi := fits_int_of_fits_buffer _ hT
    have eT := to_int_of_range _ hTi.1 hTi.2
    have hTo := sprintf_overruns_of_fits _ hT
    have hrest := strtok_shorter header A rest h1
    rw [cookie_loop_some, cookie_token_zero config _ A tr rfl htr, Option.some_bind, eT]
    cases h2 : strtok rest with
    | none =>
      refine ⟨_, cookie_loop_none _ _ _, rfl, ?_⟩
      simp [hTo]
    | some second =>
      obtain ⟨B, rest2⟩ := second
      rw [h2] at hfit2
      simp only [decide_eq_true_eq] at hfit2
      have hHi := fits_int_of_fits_buffer _ hfit2
      have eH := to_int_of_range _ hHi.1 hHi.2
      have hHo := sprintf_overruns_of_fits _ hfit2
      have hrest2 := strtok_shorter rest B rest2 h2
      obtain ⟨m, hm⟩ : ∃ m, header.length = m + 1 := ⟨header.length - 1, by omega⟩
      rw [hm, cookie_loop_some, cookie_token_one config _ B dm rfl hdm, Option.some_bind, eH]
      exact later m (strtok rest2) _ (le_refl _) rfl (by simp [hTo, hHo])
        (fun tok3 rest3 h3 => by
          have := strtok_shorter rest2 tok3 rest3 h3
          omega)

/-- C3 (amended): for every request that carries a Cookie header, well-formed, malformed or
empty, whose conversions fit the buffer, handled with a resolved descriptor whose template, if
any, is copied and substituted inside its blocks, the handler answers with `show` still 1 and
without a write past the buffer, and the body is level content: the default layout, which is
never the start-over message, when the descriptor has no template, and the templated layout of
the template otherwise. -/
theorem cookie_header_shows_level (lit_addr : Nat) (g : stack_garbage) (r : request_rec)
    (config : choose_config) (cookie_data : List Char)
    (hh : r.handler = some "choose-handler".toList) (hres : resolved config)
    (hc : r.cookie_data = some cookie_data)
    (hfit : conversions_fit config cookie_data = true)
    (hsafe : ∀ t, config.theme_template = some t → templated_layout_checked config t ≠ none) :
    ∃ l resp, read_cookie lit_addr g r config = some l ∧ l.show_flag = 1
      ∧ choose_handler lit_addr g r config = some resp ∧ resp.status = OK
      ∧ resp.overrun = false
      ∧ (config.theme_template = none →
          resp.body = default_layout l config ∧ resp.body ≠ start_over)
      ∧ (∀ t, config.theme_template = some t →
          templated_layout_checked config t = some resp.body) := by
  obtain ⟨tr, htr⟩ := Option.ne_none_iff_exists'.mp hres.2.2.1
  obtain ⟨dm, hdm⟩ := Option.ne_none_iff_exists'.mp hres.2.2.2
  obtain ⟨l, hl, hs, ho⟩ := read_cookie_fits lit_addr g r config cookie_data tr dm hc htr hdm hfit
  obtain ⟨resp, h1, h2, -, h4, h5, h6⟩ :=
    choose_handler_visible lit_addr g r config l hh hres hl hs
  refine ⟨l, resp, hl, hs, h1, h2, by rw [h4, ho], fun hn => ⟨h5 hn, ?_⟩, fun t ht => ?_⟩
  · rw [h5 hn]
    exact default_layout_ne_start_over l config
  · obtain ⟨body, hbody⟩ := Option.ne_none_iff_exists'.mp (hsafe t ht)
    have hb := templated_layout_checked_some config t body hbody
    rw [h6 t ht] at hb
    rw [hbody, Option.some.inj hb]

set_option maxRecDepth 8000 in
/-- A malformed Cookie header, `abc`, on a level with a template of 41 characters. -/
theorem cookie_header_shows_level_witness :
    conversions_fit
        (stage2 "10".toList "20".toList
          (some "<h1>\x7b\x7btitle\x7d\x7d</h1>\x7b\x7bhealth\x7d\x7d \x7b\x7btreasure\x7d\x7d".toList))
        "abc".toList = true
      ∧ templated_layout_checked
          (stage2 "10".toList "20".toList
            (some "<h1>\x7b\x7btitle\x7d\x7d</h1>\x7b\x7bhealth\x7d\x7d \x7b\x7btreasure\x7d\x7d".toList))
          "<h1>\x7b\x7btitle\x7d\x7d</h1>\x7b\x7bhealth\x7d\x7d \x7b\x7btreasure\x7d\x7d".toList
        = some "<h1>Choose Your Path</h1>20 10".toList
      ∧ ∃ l resp, read_cookie literal_addr stale
            (get "/var/www/html/cyp/stage2".toList (some "abc".toList))
            (stage2 "10".toList "20".toList
              (some "<h1>\x7b\x7btitle\x7d\x7d</h1>\x7b\x7bhealth\x7d\x7d \x7b\x7btreasure\x7d\x7d".toList))
            = some l ∧ l.show_flag = 1
          ∧ choose_handler literal_addr stale
              (get "/var/www/html/cyp/stage2".toList (some "abc".toList))
              (stage2 "10".toList "20".toList
                (some "<h1>\x7b\x7btitle\x7d\x7d</h1>\x7b\x7bhealth\x7d\x7d \x7b\x7btreasure\x7d\x7d".toList))
              = some resp ∧ resp.status = OK
          ∧ resp.overrun = false
          ∧ ((stage2 "10".toList "20".toList
                (some "<h1>\x7b\x7btitle\x7d\x7d</h1>\x7b\x7bhealth\x7d\x7d \x7b\x7btreasure\x7d\x7d".toList)).theme_template
                = none →
              resp.body = default_layout l
                  (stage2 "10".toList "20".toList
                    (some "<h1>\x7b\x7btitle\x7d\x7d</h1>\x7b\x7bhealth\x7d\x7d \x7b\x7btreasure\x7d\x7d".toList))
                ∧ resp.body ≠ start_over)
          ∧ (∀ t, (stage2 "10".toList "20".toList
                (some "<h1>\x7b\x7btitle\x7d\x7d</h1>\x7b\x7bhealth\x7d\x7d \x7b\x7btreasure\x7d\x7d".toList)).theme_template
                = some t →
              templated_layout_checked
                (stage2 "10".toList "20".toList
                  (some "<h1>\x7b\x7btitle\x7d\x7d</h1>\x7b\x7bhealth\x7d\x7d \x7b\x7btreasure\x7d\x7d".toList))
                t = some resp.body) :=
  ⟨by rfl, by rfl,
    cookie_header_shows_level literal_addr stale
      (get "/var/www/html/cyp/stage2".toList (some "abc".toList))
      (stage2 "10".toList "20".toList
        (some "<h1>\x7b\x7btitle\x7d\x7d</h1>\x7b\x7bhealth\x7d\x7d \x7b\x7btreasure\x7d\x7d".toList))
      "abc".toList rfl (by decide) rfl (by rfl)
      (fun t ht => by
        cases ht
        rw [show templated_layout_checked
            (stage2 "10".toList "20".toList
              (some "<h1>\x7b\x7btitle\x7d\x7d</h1>\x7b\x7bhealth\x7d\x7d \x7b\x7btreasure\x7d\x7d".toList))
            "<h1>\x7b\x7btitle\x7d\x7d</h1>\x7b\x7bhealth\x7d\x7d \x7b\x7btreasure\x7d\x7d".toList
            = some "<h1>Choose Your Path</h1>20 10".toList from by rfl]
        exact Option.some_ne_none _)⟩

set_option maxRecDepth 8000 in
/-- C3 as stated fails for a template that is the text of the start-over message: with the
cookie `50&800` the handler keeps `show = 1` and prints the templated layout, every write
inside its block, and the body is the start-over message. -/
theorem template_may_be_the_start_over_text :
    (read_cookie literal_addr stale
          (get "/var/www/html/cyp/stage2".toList (some "50&800".toList))
          (stage2 "10".toList "20".toList (some start_over))).map locals.show_flag = some 1
      ∧ templated_layout_checked (stage2 "10".toList "20".toList (some start_over)) start_over
          = some start_over
      ∧ choose_handler literal_addr stale
          (get "/var/www/html/cyp/stage2".toList (some "50&800".toList))
          (stage2 "10".toList "20".toList (some start_over))
        = some { status := OK, set_cookie := some "60&780".toList
                 content_type := some "text/html".toList, body := start_over
                 overrun := false } :=
  ⟨by rfl, by rfl, by rfl⟩

/-! ## C8 -/

/-- The digit loop in a base up to 10 stops at a character that is not a decimal digit. -/
theorem strtol_digits_stop_le (base : Nat) (hb : base ≤ 10) (acc : Nat) (c : Char)
    (t : List Char) (hc : isdigit c = false) : strtol_digits base acc (c :: t) = acc := by
  have hc2 : ¬ (48 ≤ c.toNat ∧ c.toNat ≤ 57) := by
    intro h
    simp [isdigit, h.1, h.2] at hc
  unfold strtol_digits
  unfold digit_value
  rw [if_neg hc2]
  by_cases h1 : 97 ≤ c.toNat ∧ c.toNat ≤ 122
  · rw [if_pos h1]
    have : ¬ (c.toNat - 87 < base) := by omega
    simp [this]
  · rw [if_neg h1]
    by_cases h2 : 65 ≤ c.toNat ∧ c.toNat ≤ 90
    · rw [if_pos h2]
      have : ¬ (c.toNat - 55 < base) := by omega
      simp [this]
    · rw [if_neg h2]

theorem decimal_fold_ge (ds : List Char) (acc : Nat) :
    acc ≤ ds.foldl (fun a c => a * 10 + (c.toNat - 48)) acc := by
  induction ds generalizing acc with
  | nil => exact le_refl _
  | cons d ds ih =>
    simp only [List.foldl_cons]
    exact le_trans (by omega) (ih _)

/-- Digits whose base-10 value is at most 7 have the same value in base 8. -/
theorem strtol_digits_octal_small (ds tail : List Char) (acc : Nat)
    (hds : ∀ c ∈ ds, isdigit c = true) (htail : starts_with_digit tail = false)
    (hsmall : ds.foldl (fun a c => a * 10 + (c.toNat - 48)) acc ≤ 7) :
    strtol_digits 8 acc (ds ++ tail) = ds.foldl (fun a c => a * 10 + (c.toNat - 48)) acc := by
  induction ds generalizing acc with
  | nil =>
    cases tail with
    | nil => simp [strtol_digits]
    | cons c t => simpa using strtol_digits_stop_le 8 (by decide) acc c t htail
  | cons d ds ih =>
    have hd : isdigit d = true := hds d (List.mem_cons_self _ _)
    have hb := isdigit_bounds hd
    simp only [List.foldl_cons] at hsmall
    have hge := decimal_fold_ge ds (acc * 10 + (d.toNat - 48))
    have hacc : acc = 0 := by omega
    subst hacc
    have hlt : d.toNat - 48 < 8 := by omega
    have ih2 := ih (0 * 10 + (d.toNat - 48)) (fun c hc => hds c (List.mem_cons_of_mem _ hc))
      hsmall
    simp only [List.cons_append, List.foldl_cons]
    rw [← ih2]
    conv_lhs => unfold strtol_digits
    rw [digit_value_of_isdigit hd]
    simp [hlt]

/-- The value `strtol` gives a text that starts with a digit, bare or after a sign: the
digits read in the base selected, clamped to `long`. -/
theorem strtol_body (d : Char) (b : List Char) (hd : isdigit d = true) :
    strtol (d :: b)
        = min LONG_MAX
            ((strtol_digits (strtol_base (d :: b)).1 0 (strtol_base (d :: b)).2 : Nat) : Int)
      ∧ strtol ('+' :: d :: b)
        = min LONG_MAX
            ((strtol_digits (strtol_base (d :: b)).1 0 (strtol_base (d :: b)).2 : Nat) : Int)
      ∧ strtol ('-' :: d :: b)
        = max LONG_MIN
            (-((strtol_digits (strtol_base (d :: b)).1 0 (strtol_base (d :: b)).2 : Nat)
              : Int)) := by
  have hsp1 : isspace '+' = false := by decide
  have hsp2 : isspace '-' = false := by decide
  have hs1 : strtol_sign ('+' :: (d :: b)) = (false, d :: b) := by simp [strtol_sign]
  have hs2 : strtol_sign ('-' :: (d :: b)) = (true, d :: b) := by simp [strtol_sign]
  refine ⟨?_, ?_, ?_⟩
  · unfold strtol
    simp only [List.dropWhile_cons, isspace_of_isdigit hd, Bool.false_eq_true, if_false,
      strtol_sign_digit d _ hd]
  · unfold strtol
    simp only [List.dropWhile_cons, hsp1, Bool.false_eq_true, if_false]
    rw [hs1]
    simp
  · unfold strtol
    simp only [List.dropWhile_cons, hsp2, Bool.false_eq_true, if_false]
    rw [hs2]
    simp

/-- The digits of a numeral read in base 10, as `strtol` with base 0 reads them. -/
theorem strtol_magnitude (d : Char) (ds tail : List Char) (hd : isdigit d = true)
    (hds : ∀ c ∈ ds, isdigit c = true) (htail : starts_with_digit tail = false)
    (hten : (d :: ds).head? ≠ some '0'
      ∨ (decimal_value (d :: ds) ≤ 7 ∧ (d :: ds = [ '0' ] → hex_tail_value tail = 0))) :
    strtol_digits (strtol_base (d :: (ds ++ tail))).1 0 (strtol_base (d :: (ds ++ tail))).2
      = decimal_value (d :: ds) := by
  have hall : ∀ c ∈ d :: ds, isdigit c = true := by
    intro c hc
    rcases List.mem_cons.mp hc with h | h
    · rw [h]; exact hd
    · exact hds c h
  have htail2 : ∀ c, tail.head? = some c → isdigit c = false := by
    intro c hc
    cases tail with
    | nil => simp at hc
    | cons t0 tt =>
      have : t0 = c := by simpa using hc
      rw [← this]
      exact htail
  by_cases hd0 : d = '0'
  · have hsmall : decimal_value (d :: ds) ≤ 7
        ∧ (d :: ds = [ '0' ] → hex_tail_value tail = 0) := by
      rcases hten with h | h
      · exact absurd (by rw [hd0]; rfl) h
      · exact h
    obtain ⟨hval, hhex⟩ := hsmall
    have hoct := strtol_digits_octal_small (d :: ds) tail 0 hall htail hval
    cases hrest : ds ++ tail with
    | nil =>
      have hds0 : ds = [] := (List.append_eq_nil.mp hrest).1
      subst hds0
      subst hd0
      rfl
    | cons x t =>
      by_cases hx : x = 'x' ∨ x = 'X'
      · have hxd : isdigit x = false := by
          rcases hx with e | e <;> rw [e] <;> decide
        have hds0 : ds = [] := by
          cases ds with
          | nil => rfl
          | cons y ys =>
            have : y = x := by
              have := hrest
              simp only [List.cons_append, List.cons.injEq] at this
              exact this.1
            have hy := hds y (List.mem_cons_self _ _)
            rw [this, hxd] at hy
            exact absurd hy (by simp)
        subst hds0
        simp only [List.nil_append] at hrest
        subst hd0
        have hh := hhex rfl
        rw [hrest] at hh
        have hh2 : strtol_digits 16 0 t = 0 := by
          have hh3 : (if x = 'x' ∨ x = 'X' then strtol_digits 16 0 t else 0) = 0 := hh
          rw [if_pos hx] at hh3
          exact hh3
        have hbase : strtol_base ('0' :: x :: t) = (16, t) := by
          simp [strtol_base, hx]
        rw [hbase]
        simp only []
        rw [hh2]
        rfl
      · have hbase : strtol_base (d :: x :: t) = (8, d :: x :: t) := by
          subst hd0
          simp [strtol_base, hx]
        rw [hbase]
        simp only []
        rw [← hrest, ← List.cons_append, hoct]
        rfl
  · rw [strtol_base_nonzero d _ hd0]
    simp only []
    rw [← List.cons_append, strtol_digits_decimal (d :: ds) tail 0 hall htail2]
    rfl

/-- The `int` the handler reads from a numeral that is read in base 10 is its base-10 value. -/
theorem numeral_read (n : numeral) (hs : n.shaped) (ht : n.read_in_base_ten) :
    to_int (strtol n.text) = n.value := by
  obtain ⟨hsign, hne, hds, htail⟩ := hs
  obtain ⟨hten, hint⟩ := ht
  have hL1 : LONG_MIN = -9223372036854775808 := by norm_num [LONG_MIN]
  have hL2 : LONG_MAX = 9223372036854775807 := by norm_num [LONG_MAX]
  cases hdig : n.digits with
  | nil => exact absurd hdig hne
  | cons d ds =>
    rw [hdig] at hds hten
    have hd : isdigit d = true := hds d (List.mem_cons_self _ _)
    have hds2 : ∀ c ∈ ds, isdigit c = true := fun c hc => hds c (List.mem_cons_of_mem _ hc)
    have hmag := strtol_magnitude d ds n.tail hd hds2 htail hten
    obtain ⟨b1, b2, b3⟩ := strtol_body d (ds ++ n.tail) hd
    rw [hmag] at b1 b2 b3
    unfold numeral.value at hint ⊢
    unfold fits_int at hint
    unfold numeral.text
    rw [hdig] at hint ⊢
    rcases hsign with h | h | h
    · rw [h] at hint ⊢
      rw [if_neg (by simp)] at hint ⊢
      simp only [List.nil_append, List.cons_append]
      rw [b1, hL2, min_eq_right (by omega)]
      exact to_int_of_range _ hint.1 hint.2
    · rw [h] at hint ⊢
      rw [if_neg (by decide)] at hint ⊢
      simp only [List.singleton_append, List.cons_append, List.nil_append]
      rw [b2, hL2, min_eq_right (by omega)]
      exact to_int_of_range _ hint.1 hint.2
    · rw [h] at hint ⊢
      rw [if_pos rfl] at hint ⊢
      simp only [List.singleton_append, List.cons_append, List.nil_append]
      rw [b3, hL1, max_eq_right (by omega)]
      exact to_int_of_range _ hint.1 hint.2

theorem numeral_text_ne_nil (n : numeral) (hs : n.shaped) : n.text ≠ [] := by
  obtain ⟨-, hne, -, -⟩ := hs
  unfold numeral.text
  intro h
  have := (List.append_eq_nil.mp (List.append_eq_nil.mp h).1).2
  exact hne this

/-- C8 (amended): every integer field the engine reads, each cookie segment, the reward string
and the damage string, is read by `strtol` with base 0 and converted to `int`. For every field
made of an optional sign, one or more decimal digits and a tail that does not start with a
digit, whose digits do not start with `0` or have a base-10 value of at most 7 (so `0`, `-0`,
`00` and `007`; a lone `0` not starting a hexadecimal number other than 0), and whose
signed base-10 value is an `int`, the value used is that base-10 value: with four such fields
for which treasure plus reward and health minus damage fit the conversion buffer, the handler
computes those two values and its Set-Cookie value encodes them. -/
theorem fields_are_read_in_base_ten (lit_addr : Nat) (g : stack_garbage) (r : request_rec)
    (config : choose_config) (treasure health reward damage : numeral)
    (hh : r.handler = some "choose-handler".toList) (hres : resolved config)
    (hc : r.cookie_data = some (treasure.text ++ '&' :: health.text))
    (htamp : ∀ c ∈ treasure.text, c ≠ '&') (hhamp : ∀ c ∈ health.text, c ≠ '&')
    (htr : config.treasure = some reward.text) (hdm : config.damage = some damage.text)
    (s1 : treasure.shaped) (s2 : health.shaped) (s3 : reward.shaped) (s4 : damage.shaped)
    (t1 : treasure.read_in_base_ten) (t2 : health.read_in_base_ten)
    (t3 : reward.read_in_base_ten) (t4 : damage.read_in_base_ten)
    (hT : fits_buffer (treasure.value + reward.value))
    (hH : fits_buffer (health.value - damage.value)) :
    to_int (strtol treasure.text) = treasure.value
      ∧ to_int (strtol health.text) = health.value
      ∧ to_int (strtol reward.text) = reward.value
      ∧ to_int (strtol damage.text) = damage.value
      ∧ ∃ l resp, read_cookie lit_addr g r config = some l
          ∧ l.config_treasure = treasure.value + reward.value
          ∧ l.config_damage = health.value - damage.value
          ∧ choose_handler lit_addr g r config = some resp
          ∧ resp.set_cookie
              = some (encode (treasure.value + reward.value) (health.value - damage.value))
          ∧ resp.overrun = false := by
  have r1 := numeral_read treasure s1 t1
  have r2 := numeral_read health s2 t2
  have r3 := numeral_read reward s3 t3
  have r4 := numeral_read damage s4 t4
  have hTi := fits_int_of_fits_buffer _ hT
  have hHi := fits_int_of_fits_buffer _ hH
  obtain ⟨l, resp, a1, -, a3, a4, a5, -, a7, a8⟩ :=
    handler_two_segments lit_addr g r config treasure.text health.text reward.text damage.text
      (treasure.value + reward.value) (health.value - damage.value) hh hres hc
      (numeral_text_ne_nil treasure s1) htamp (numeral_text_ne_nil health s2) hhamp htr hdm
      (by rw [r3, r1, add_comm]
          exact to_int_of_range _ hTi.1 hTi.2)
      (by rw [r2, r4]
          exact to_int_of_range _ hHi.1 hHi.2)
      hT hH
  exact ⟨r1, r2, r3, r4, l, resp, a1, a3, a4, a5, a7, a8⟩

set_option maxRecDepth 8000 in
/-- The cookie `007&-800;x` with reward `0` and damage `+20 pts` gives `7&-820`. -/
theorem fields_are_read_in_base_ten_witness :
    (get "/var/www/html/cyp/stage2".toList (some "007&-800;x".toList)).cookie_data
        = some ((numeral.mk [] "007".toList []).text
            ++ '&' :: (numeral.mk [ '-' ] "800".toList ";x".toList).text)
      ∧ (stage2 "0".toList "+20 pts".toList none).treasure
          = some (numeral.mk [] "0".toList []).text
      ∧ (stage2 "0".toList "+20 pts".toList none).damage
          = some (numeral.mk [ '+' ] "20".toList " pts".toList).text
      ∧ (numeral.mk [] "007".toList []).read_in_base_ten
      ∧ (numeral.mk [] "0".toList []).read_in_base_ten
      ∧ encode ((numeral.mk [] "007".toList []).value + (numeral.mk [] "0".toList []).value)
            ((numeral.mk [ '-' ] "800".toList ";x".toList).value
              - (numeral.mk [ '+' ] "20".toList " pts".toList).value)
          = "7&-820".toList
      ∧ (to_int (strtol (numeral.mk [] "007".toList []).text)
            = (numeral.mk [] "007".toList []).value
          ∧ to_int (strtol (numeral.mk [ '-' ] "800".toList ";x".toList).text)
            = (numeral.mk [ '-' ] "800".toList ";x".toList).value
          ∧ to_int (strtol (numeral.mk [] "0".toList []).text)
            = (numeral.mk [] "0".toList []).value
          ∧ to_int (strtol (numeral.mk [ '+' ] "20".toList " pts".toList).text)
            = (numeral.mk [ '+' ] "20".toList " pts".toList).value
          ∧ ∃ l resp, read_cookie literal_addr stale
                (get "/var/www/html/cyp/stage2".toList (some "007&-800;x".toList))
                (stage2 "0".toList "+20 pts".toList none) = some l
              ∧ l.config_treasure
                  = (numeral.mk [] "007".toList []).value + (numeral.mk [] "0".toList []).value
              ∧ l.config_damage
                  = (numeral.mk [ '-' ] "800".toList ";x".toList).value
                    - (numeral.mk [ '+' ] "20".toList " pts".toList).value
              ∧ choose_handler literal_addr stale
                  (get "/var/www/html/cyp/stage2".toList (some "007&-800;x".toList))
                  (stage2 "0".toList "+20 pts".toList none) = some resp
              ∧ resp.set_cookie
                  = some (encode
                      ((numeral.mk [] "007".toList []).value
                        + (numeral.mk [] "0".toList []).value)
                      ((numeral.mk [ '-' ] "800".toList ";x".toList).value
                        - (numeral.mk [ '+' ] "20".toList " pts".toList).value))
              ∧ resp.overrun = false) :=
  ⟨by rfl, by rfl, by rfl, by decide, by decide, by rfl,
    fields_are_read_in_base_ten literal_addr stale
      (get "/var/www/html/cyp/stage2".toList (some "007&-800;x".toList))
      (stage2 "0".toList "+20 pts".toList none)
      (numeral.mk [] "007".toList []) (numeral.mk [ '-' ] "800".toList ";x".toList)
      (numeral.mk [] "0".toList []) (numeral.mk [ '+' ] "20".toList " pts".toList)
      rfl (by decide) (by rfl) (by decide) (by decide) (by rfl) (by rfl)
      (by decide) (by decide) (by decide) (by decide)
      (by decide) (by decide) (by decide) (by decide) (by decide) (by decide)⟩

end CYP
